import Mathlib

/-!
# The `dm` dialect of gorm (`dialect_dm.go`)

A shallow embedding of the column-type resolver `DataTypeOf`, the pagination
renderer `LimitAndOffsetSQL`, the key-name builder `BuildKeyName`, the index
normalizer `NormalizeIndexAndColumn` and the four existence predicates, with
the properties their specification states.

Conventions of the embedding.

* A Go `string` is a Lean `String`; its runes are the characters, its bytes
  the UTF-8 encoding of the characters.
* A Go `int` / `int64` is an `Int`; no arithmetic is done on them, they are
  only compared with constants and printed, so no wrap-around can occur. The
  32-bit words of SHA-1 are natural numbers reduced modulo `2 ^ 32`.
* `fmt.Sprintf` with the verbs `%d`, `%s`, `%v` on integers and strings is
  string concatenation with the decimal rendering of the integer; `%x` on a
  byte slice is its lowercase hexadecimal rendering.
* A `panic(msg)` is the result `Except.error msg`.
* The field descriptor is passed by pointer and mutated in place; the model
  returns the descriptor after the call next to the result.
* What the host framework supplies and `dialect_dm.go` only calls
  (`ParseFieldStructForDialect`, `fieldCanAutoIncrement`, `parseInt`,
  `commonDialect.BuildKeyName`, `keyNameRegex`, `currentDatabaseAndTable`, the
  database handle) is a parameter.
-/

namespace Gorm

/-! ## Data model -/

/-- The kinds of `reflect.Kind`, in the order of the Go standard library. -/
inductive Kind where
  | Invalid | Bool
  | Int | Int8 | Int16 | Int32 | Int64
  | Uint | Uint8 | Uint16 | Uint32 | Uint64 | Uintptr
  | Float32 | Float64 | Complex64 | Complex128
  | Array | Chan | Func | Interface | Map | Ptr | Slice
  | String | Struct | UnsafePointer
  deriving DecidableEq, Repr

/-- The name `reflect.Kind.String()` gives a kind. -/
def kindString : Kind → String
  | .Invalid => "invalid" | .Bool => "bool"
  | .Int => "int" | .Int8 => "int8" | .Int16 => "int16" | .Int32 => "int32"
  | .Int64 => "int64"
  | .Uint => "uint" | .Uint8 => "uint8" | .Uint16 => "uint16"
  | .Uint32 => "uint32" | .Uint64 => "uint64" | .Uintptr => "uintptr"
  | .Float32 => "float32" | .Float64 => "float64"
  | .Complex64 => "complex64" | .Complex128 => "complex128"
  | .Array => "array" | .Chan => "chan" | .Func => "func"
  | .Interface => "interface" | .Map => "map" | .Ptr => "ptr"
  | .Slice => "slice" | .String => "string" | .Struct => "struct"
  | .UnsafePointer => "unsafe.Pointer"

/-- What `DataTypeOf` observes of the `reflect.Value` named `dataValue`:
`Kind()`, `Type().Name()`, whether `Interface().(time.Time)` succeeds, and
whether `Type().Elem()` is the type `uint8` (read for arrays and slices). -/
structure Value where
  kind : Kind
  typeName : String
  isTime : Bool
  elemIsUint8 : Bool

/-- The field descriptor `StructField`, with the members `DataTypeOf` reads or
writes: the name, the primary-key flag and the tag settings, a map from
setting name to value. -/
structure StructField where
  Name : String
  IsPrimaryKey : Bool
  TagSettings : String → Option String

/-- Modelled from the spec: `StructField.TagSettingsGet` is not among the
sources; it looks a key up in the "mapping of free-form tag settings". -/
def TagSettingsGet (field : StructField) (key : String) : Option String :=
  field.TagSettings key

/-- Modelled from the spec: `StructField.TagSettingsSet` is not among the
sources; it binds a key of the tag settings to a value. -/
def TagSettingsSet (field : StructField) (key val : String) : StructField :=
  { field with TagSettings := fun k => if k = key then some val else field.TagSettings k }

/-- Modelled from the spec: `StructField.TagSettingsDelete` is not among the
sources; it removes a key from the tag settings. -/
def TagSettingsDelete (field : StructField) (key : String) : StructField :=
  { field with TagSettings := fun k => if k = key then none else field.TagSettings k }

/-- Modelled from the spec: `IsByteArrayOrSlice` is not among the sources; a
"byte sequence (array or variable-length)" is an array or a slice whose
element type is `uint8`. -/
def IsByteArrayOrSlice (v : Value) : Bool :=
  (v.kind == Kind.Array || v.kind == Kind.Slice) && v.elemIsUint8

/-- The four results of `ParseFieldStructForDialect`. -/
structure Parsed where
  dataValue : Value
  sqlType : String
  size : Int
  additionalType : String

/-- What the host framework supplies to `DataTypeOf`: the field parser and the
auto-increment eligibility policy. -/
structure Host where
  ParseFieldStructForDialect : StructField → Parsed
  fieldCanAutoIncrement : StructField → Bool

/-! ## Strings -/

/-- The predicate `unicode.IsSpace`: the white space characters of Unicode. -/
def isSpace (c : Char) : Bool :=
  c = '\t' || c = '\n' || c.toNat = 0x0B || c.toNat = 0x0C || c = '\r' || c = ' '
    || c.toNat = 0x85 || c.toNat = 0xA0 || c.toNat = 0x1680
    || (0x2000 ≤ c.toNat && c.toNat ≤ 0x200A)
    || c.toNat = 0x2028 || c.toNat = 0x2029 || c.toNat = 0x202F
    || c.toNat = 0x205F || c.toNat = 0x3000

/-- Go `strings.TrimSpace` on a list of characters. -/
def trimSpaceList (l : List Char) : List Char :=
  ((l.dropWhile isSpace).reverse.dropWhile isSpace).reverse

/-- Go `strings.TrimSpace`: the string without its leading and trailing white
space. -/
def TrimSpace (s : String) : String :=
  String.mk (trimSpaceList s.data)

/-- Go `%d` on an integer. -/
def fmtInt (n : Int) : String := toString n

/-! ## `DataTypeOf` -/

/-- The arm of the `switch` shared by the integer kinds (source lines 46-87):
query the policy; when the field qualifies, set the `AUTO_INCREMENT` setting
and choose the auto-increment variant of the plain type. -/
def autoIncrementArm (h : Host) (field : StructField) (plain : String) :
    String × StructField :=
  if h.fieldCanAutoIncrement field then
    (plain ++ " AUTO_INCREMENT", TagSettingsSet field "AUTO_INCREMENT" "AUTO_INCREMENT")
  else
    (plain, field)

/-- The `switch dataValue.Kind()` of `DataTypeOf` (source lines 43-117): the
column type inferred from the kind, the empty string when no arm assigns one,
and the descriptor as the arm leaves it. -/
def inferType (h : Host) (dataValue : Value) (size : Int) (field : StructField) :
    String × StructField :=
  match dataValue.kind with
  | .Bool => ("int", field)
  | .Int8 => autoIncrementArm h field "tinyint"
  | .Int | .Int16 | .Int32 => autoIncrementArm h field "int"
  | .Uint8 => autoIncrementArm h field "tinyint unsigned"
  | .Uint | .Uint16 | .Uint32 | .Uintptr => autoIncrementArm h field "int unsigned"
  | .Int64 => autoIncrementArm h field "bigint"
  | .Uint64 => autoIncrementArm h field "bigint unsigned"
  | .Float32 | .Float64 => ("double", field)
  | .String =>
    if size > 0 ∧ size < 65532 then ("varchar(" ++ fmtInt size ++ ")", field)
    else ("varchar(102400)", field)
  | .Struct =>
    if dataValue.isTime then
      let precision :=
        match TagSettingsGet field "PRECISION" with
        | some p => "(" ++ p ++ ")"
        | none => ""
      if (field.TagSettings "NOT NULL").isSome || field.IsPrimaryKey then
        ("DATETIME" ++ precision, field)
      else
        ("DATETIME" ++ precision ++ " NULL", field)
    else ("", field)
  | _ =>
    if IsByteArrayOrSlice dataValue then
      if size > 0 ∧ size < 65532 then ("varbinary(" ++ fmtInt size ++ ")", field)
      else ("longblob", field)
    else ("", field)

/-- The descriptor after source lines 38-40: the `AUTO_INCREMENT` setting is
deleted when it is present. -/
def clearAutoIncrement (field : StructField) : StructField :=
  if (TagSettingsGet field "AUTO_INCREMENT").isSome then
    TagSettingsDelete field "AUTO_INCREMENT"
  else field

/-- The column type of source lines 34-118, before the panic test and before
the suffix: the explicit type when there is one, the inferred type otherwise;
with the descriptor as left by these lines. -/
def chosenType (h : Host) (field : StructField) : String × StructField :=
  let p := h.ParseFieldStructForDialect field
  let field1 := clearAutoIncrement field
  if p.sqlType = "" then inferType h p.dataValue p.size field1
  else (p.sqlType, field1)

/-- The message of the panic at source line 121. -/
def panicMessage (dataValue : Value) (field : StructField) : String :=
  "invalid sql type " ++ dataValue.typeName ++ " (" ++ kindString dataValue.kind
    ++ ") in field " ++ field.Name ++ " for dm"

/-- The method `dm.DataTypeOf`: the SQL column type of a field, or the panic
message, together with the descriptor after the call. -/
def DataTypeOf (h : Host) (field : StructField) : Except String String × StructField :=
  let p := h.ParseFieldStructForDialect field
  let (sqlType, field2) := chosenType h field
  if sqlType = "" then
    (.error (panicMessage p.dataValue field2), field2)
  else if TrimSpace p.additionalType = "" then
    (.ok sqlType, field2)
  else
    (.ok (sqlType ++ " " ++ p.additionalType), field2)

/-- The string `s` ends in the string `suffix`. -/
def endsIn (s suffix : String) : Prop := List.IsSuffix suffix.data s.data

instance (s suffix : String) : Decidable (endsIn s suffix) := by
  unfold endsIn; infer_instance

/-- The kind is one of the eleven signed or unsigned integer kinds. -/
def isIntegerKind (k : Kind) : Prop :=
  k = .Int ∨ k = .Int8 ∨ k = .Int16 ∨ k = .Int32 ∨ k = .Int64 ∨
  k = .Uint ∨ k = .Uint8 ∨ k = .Uint16 ∨ k = .Uint32 ∨ k = .Uint64 ∨ k = .Uintptr

instance (k : Kind) : Decidable (isIntegerKind k) := by
  unfold isIntegerKind; infer_instance


/-- The kind is in the mapping table of `DataTypeOf`: bool, an integer kind, a
float kind, string, the struct `time.Time`, or an array or slice of bytes. -/
def inMappingTable (v : Value) : Prop :=
  v.kind = .Bool ∨ isIntegerKind v.kind ∨ v.kind = .Float32 ∨ v.kind = .Float64 ∨
  v.kind = .String ∨ (v.kind = .Struct ∧ v.isTime = true) ∨ IsByteArrayOrSlice v = true

/-- A host for the examples: the parser returns `p` for every field, the
policy qualifies exactly the primary keys. -/
def constHost (p : Parsed) : Host :=
  { ParseFieldStructForDialect := fun _ => p,
    fieldCanAutoIncrement := fun f => f.IsPrimaryKey }

/-- A value of the given kind, `time.Time` when the kind is struct, with
element type `uint8` when the kind is array or slice. -/
def valueOf (k : Kind) : Value :=
  { kind := k, typeName := kindString k, isTime := k == .Struct,
    elemIsUint8 := k == .Array || k == .Slice }

/-- A field without tag settings. -/
def plainField (name : String) (pk : Bool) : StructField :=
  { Name := name, IsPrimaryKey := pk, TagSettings := fun _ => none }


/-- A field with a single tag setting. -/
def taggedField (name : String) (pk : Bool) (key val : String) : StructField :=
  { Name := name, IsPrimaryKey := pk,
    TagSettings := fun k => if k = key then some val else none }

/-- A policy that reads the setting `AUTO_INCREMENT` of the descriptor: a field
that carries the setting qualifies unless its value, in lower case, is
`false`; a field without the setting qualifies when it is a primary key. -/
def settingPolicy (field : StructField) : Bool :=
  match TagSettingsGet field "AUTO_INCREMENT" with
  | some value => String.mk (value.data.map Char.toLower) != "false"
  | none => field.IsPrimaryKey

/-- A host for the examples: the parser returns `p` for every field, the
policy is `settingPolicy`. -/
def settingHost (p : Parsed) : Host :=
  { ParseFieldStructForDialect := fun _ => p,
    fieldCanAutoIncrement := settingPolicy }

/-! ## `LimitAndOffsetSQL` -/

/-- The method `dm.LimitAndOffsetSQL`. An argument of type `interface{}` is an
`Option`, `none` being `nil`; `parseInt` is the host's conversion of a value to
an `int64`, which fails with an error of type `ε`. The result is the pair
`(sql, err)` the Go function returns, `none` being the `nil` error. -/
def LimitAndOffsetSQL {α ε : Type} (parseInt : α → Except ε Int)
    (limit offset : Option α) : String × Option ε :=
  match limit with
  | none => ("", none)
  | some l =>
    match parseInt l with
    | .error err => ("", some err)
    | .ok parsedLimit =>
      if parsedLimit ≥ 0 then
        let sql := "" ++ (" LIMIT " ++ fmtInt parsedLimit)
        match offset with
        | none => (sql, none)
        | some o =>
          match parseInt o with
          | .error err => ("", some err)
          | .ok parsedOffset =>
            if parsedOffset ≥ 0 then (sql ++ (" OFFSET " ++ fmtInt parsedOffset), none)
            else (sql, none)
      else ("", none)

/-- A conversion for the examples: a value is either an integer or a text that
is no number, and converting the text fails with the text as the error. -/
def parseIntOrText : Except String Int → Except String Int := fun v => v

/-! ## `BuildKeyName` -/

/-- The bytes of the UTF-8 encoding of a character. -/
def utf8EncodeChar (c : Char) : List Nat :=
  let v := c.toNat
  if v < 0x80 then [v]
  else if v < 0x800 then [0xC0 + v / 0x40, 0x80 + v % 0x40]
  else if v < 0x10000 then [0xE0 + v / 0x1000, 0x80 + v / 0x40 % 0x40, 0x80 + v % 0x40]
  else [0xF0 + v / 0x40000, 0x80 + v / 0x1000 % 0x40, 0x80 + v / 0x40 % 0x40, 0x80 + v % 0x40]

/-- Go `[]byte(s)`: the bytes of a string. -/
def stringBytes (s : String) : List Nat :=
  s.data.flatMap utf8EncodeChar

/-- Rotation of a 32-bit word to the left by `n` bits. -/
def rotl32 (x n : Nat) : Nat :=
  (x <<< n ||| x >>> (32 - n)) % 2 ^ 32

/-- The big-endian bytes of a word, `n` of them. -/
def bigEndianBytes : Nat → Nat → List Nat
  | 0, _ => []
  | n + 1, x => x / 256 ^ n % 256 :: bigEndianBytes n x

/-- The word of a list of big-endian bytes. -/
def wordOfBytes (bs : List Nat) : Nat :=
  bs.foldl (fun acc b => acc * 256 + b) 0

/-- SHA-1 padding: the byte `0x80`, zero bytes up to 56 modulo 64, and the
length of the message in bits as eight big-endian bytes. -/
def sha1Pad (msg : List Nat) : List Nat :=
  msg ++ [0x80] ++ List.replicate ((119 - msg.length % 64) % 64) 0
    ++ bigEndianBytes 8 (8 * msg.length)

/-- The list cut into chunks of `n` elements; `fuel` bounds the number of
chunks. -/
def chunks (n : Nat) : Nat → List Nat → List (List Nat)
  | 0, _ => []
  | fuel + 1, l => if l.isEmpty then [] else l.take n :: chunks n fuel (l.drop n)

/-- The message schedule of SHA-1, most recent word first: `k` more words
are added to `ws` by `w[t] = rotl1 (w[t-3] ^ w[t-8] ^ w[t-14] ^ w[t-16])`. -/
def sha1Extend : Nat → List Nat → List Nat
  | 0, ws => ws
  | k + 1, ws =>
    sha1Extend k
      (rotl32 (ws.getD 2 0 ^^^ ws.getD 7 0 ^^^ ws.getD 13 0 ^^^ ws.getD 15 0) 1 :: ws)

/-- The five words of the SHA-1 state. -/
structure Sha1State where
  a : Nat
  b : Nat
  c : Nat
  d : Nat
  e : Nat
  deriving DecidableEq, Repr

/-- Round `t` of SHA-1 with the schedule word `w`. -/
def sha1Round (s : Sha1State) (t w : Nat) : Sha1State :=
  let f :=
    if t < 20 then (s.b &&& s.c) ||| ((s.b ^^^ 0xFFFFFFFF) &&& s.d)
    else if t < 40 then s.b ^^^ s.c ^^^ s.d
    else if t < 60 then (s.b &&& s.c) ||| (s.b &&& s.d) ||| (s.c &&& s.d)
    else s.b ^^^ s.c ^^^ s.d
  let k :=
    if t < 20 then 0x5A827999
    else if t < 40 then 0x6ED9EBA1
    else if t < 60 then 0x8F1BBCDC
    else 0xCA62C1D6
  { a := (rotl32 s.a 5 + f + s.e + k + w) % 2 ^ 32,
    b := s.a, c := rotl32 s.b 30, d := s.c, e := s.d }

/-- The rounds of SHA-1 from round `t` on, one for each word of `ws`. -/
def sha1Rounds (s : Sha1State) (t : Nat) : List Nat → Sha1State
  | [] => s
  | w :: ws => sha1Rounds (sha1Round s t w) (t + 1) ws

/-- The SHA-1 compression of one block of 64 bytes into the state. -/
def sha1Block (h : Sha1State) (block : List Nat) : Sha1State :=
  let w16 := (chunks 4 16 block).map wordOfBytes
  let w := (sha1Extend 64 w16.reverse).reverse
  let r := sha1Rounds h 0 w
  { a := (h.a + r.a) % 2 ^ 32, b := (h.b + r.b) % 2 ^ 32, c := (h.c + r.c) % 2 ^ 32,
    d := (h.d + r.d) % 2 ^ 32, e := (h.e + r.e) % 2 ^ 32 }

/-- The initial state of SHA-1. -/
def sha1Init : Sha1State :=
  { a := 0x67452301, b := 0xEFCDAB89, c := 0x98BADCFE, d := 0x10325476, e := 0xC3D2E1F0 }

/-- The state of SHA-1 after the padded message. -/
def sha1State (msg : List Nat) : Sha1State :=
  let padded := sha1Pad msg
  (chunks 64 (padded.length / 64 + 1) padded).foldl sha1Block sha1Init

/-- Go `sha1.New()`, `Write` and `Sum(nil)`: the 20 bytes of the SHA-1 digest
of a message. -/
def sha1Sum (msg : List Nat) : List Nat :=
  let s := sha1State msg
  bigEndianBytes 4 s.a ++ bigEndianBytes 4 s.b ++ bigEndianBytes 4 s.c
    ++ bigEndianBytes 4 s.d ++ bigEndianBytes 4 s.e

/-- The lowercase hexadecimal digit of a number below 16. -/
def hexDigit (n : Nat) : Char :=
  if n < 10 then Char.ofNat (48 + n) else Char.ofNat (87 + n)

/-- Go `%x` on a byte slice: two lowercase hexadecimal digits for each byte. -/
def hexString (bs : List Nat) : String :=
  String.mk (bs.flatMap fun b => [hexDigit (b / 16), hexDigit (b % 16)])

/-- The method `dm.BuildKeyName`. The base algorithm
`commonDialect.BuildKeyName` and the replacement
`keyNameRegex.ReplaceAllString(·, "_")` belong to the host and are the
parameters `base` and `replaceAll`. `utf8.RuneCountInString` is the length of
the string in characters. Indexing the empty field list is the run-time
panic of the result `Except.error`. -/
def BuildKeyName (base : String → String → List String → String)
    (replaceAll : String → String) (kind tableName : String) (fields : List String) :
    Except String String :=
  let keyName := base kind tableName fields
  if keyName.length ≤ 64 then .ok keyName
  else
    let bs := sha1Sum (stringBytes keyName)
    match fields with
    | [] => .error "runtime error: index out of range [0] with length 0"
    | field0 :: _ =>
      let destRunes := (replaceAll field0).data
      let destRunes := if destRunes.length > 24 then destRunes.take 24 else destRunes
      .ok (String.mk destRunes ++ hexString bs)

/-- A base algorithm for the examples: the kind, the table name and the field
names, joined by underscores. -/
def joinKeyName (kind tableName : String) (fields : List String) : String :=
  kind ++ "_" ++ tableName ++ "_" ++ "_".intercalate fields

/-- A replacement for the examples: every character that is no ASCII letter
and no digit becomes an underscore. -/
def replaceNonAlnum (s : String) : String :=
  String.mk (s.data.map fun c => if c.isAlphanum then c else '_')

/-- The value of a lowercase hexadecimal digit. -/
def hexValue (c : Char) : Nat :=
  if c.toNat < 58 then c.toNat - 48 else c.toNat - 87

/-- The statement that shortened names never collide: any two inputs whose
base key names are longer than 64 characters, differ from each other and have
the same first field name get different names from `BuildKeyName`. -/
def distinctShortNames (base : String → String → List String → String)
    (replaceAll : String → String) : Prop :=
  ∀ (kind1 table1 kind2 table2 field0 : String) (rest1 rest2 : List String),
    64 < (base kind1 table1 (field0 :: rest1)).length →
    64 < (base kind2 table2 (field0 :: rest2)).length →
    base kind1 table1 (field0 :: rest1) ≠ base kind2 table2 (field0 :: rest2) →
    BuildKeyName base replaceAll kind1 table1 (field0 :: rest1)
      ≠ BuildKeyName base replaceAll kind2 table2 (field0 :: rest2)

/-- A table name of `n + 65` letters `a`. -/
def longTable (n : Nat) : String :=
  String.mk (List.replicate (n + 65) 'a')

/-! ## `NormalizeIndexAndColumn` -/

/-- The submatches of `dmIndexRegex`, the pattern `^(.+)\((\d+)\)$`, on a
string, `none` when it does not match. The string is read from its end: the
closing parenthesis, the longest run of ASCII digits, the opening parenthesis,
and before it at least one character, none of them a line feed, which `.` does
not match. `some (g1, g2)` stands for the three submatches
`[s, g1, g2]` of `FindStringSubmatch`. -/
def dmIndexRegexFind (s : String) : Option (String × String) :=
  match s.data.reverse with
  | [] => none
  | last :: r =>
    let digits := r.takeWhile Char.isDigit
    match r.dropWhile Char.isDigit with
    | [] => none
    | paren :: baseRev =>
      if last = ')' ∧ paren = '(' ∧ digits ≠ [] ∧ baseRev ≠ [] ∧ '\n' ∉ baseRev then
        some (String.mk baseRev.reverse, String.mk digits.reverse)
      else none

/-- The pattern `^(.+)\((\d+)\)$` read as a relation: the string is `g1`, an
opening parenthesis, `g2` and a closing parenthesis, where `g1` is not empty
and has no line feed and `g2` is a non-empty run of ASCII digits. -/
def dmIndexRegexMatches (s g1 g2 : String) : Prop :=
  s = g1 ++ "(" ++ g2 ++ ")" ∧ g1 ≠ "" ∧ '\n' ∉ g1.data ∧ g2 ≠ "" ∧
    ∀ c ∈ g2.data, c.isDigit = true

/-- The method `dm.NormalizeIndexAndColumn`. -/
def NormalizeIndexAndColumn (indexName columnName : String) : String × String :=
  match dmIndexRegexFind indexName with
  | none => (indexName, columnName)
  | some (g1, g2) => (g1, columnName ++ "(" ++ g2 ++ ")")

/-! ## Existence predicates -/

/-- The database handle `s.db`, as the answers it gives: `QueryRow` is the
value `QueryRow(query, args...).Scan(&n)` stores in the integer `n`, or the
error of the scan; `Query` is the rows `Query(query, args...)` returns, or its
error. -/
structure DB (ε : Type) where
  QueryRow : String → List String → Except ε Int
  Query : String → List String → Except ε (List (List String))

/-- The query text of `HasForeignKey` (source line 166). -/
def hasForeignKeyQuery : String :=
  "SELECT count(*) FROM INFORMATION_SCHEMA.TABLE_CONSTRAINTS WHERE CONSTRAINT_SCHEMA=? AND TABLE_NAME=? AND CONSTRAINT_NAME=? AND CONSTRAINT_TYPE='FOREIGN KEY'"

/-- The query text of `HasTable` (source line 174). -/
def hasTableQuery (currentDatabase tableName : String) : String :=
  "SELECT COUNT(1) FROM ALL_TABLES WHERE OWNER = '" ++ currentDatabase
    ++ "' AND TABLE_NAME = '" ++ tableName ++ "'"

/-- The query text of `HasIndex` (source line 185). -/
def hasIndexQuery (currentDatabase tableName : String) : String :=
  "SHOW INDEXES FROM `" ++ tableName ++ "` FROM `" ++ currentDatabase
    ++ "` WHERE Key_name = ?"

/-- The query text of `HasColumn` (source line 195). -/
def hasColumnQuery (currentDatabase tableName : String) : String :=
  "SELECT COLUMN_NAME FROM ALL_TAB_COLUMNS WHERE TABLE_NAME='" ++ tableName
    ++ "' AND OWNER='" ++ currentDatabase ++ "' AND COLUMN_NAME = ?"

/-- The method `dm.HasForeignKey`. The host's `currentDatabaseAndTable` is the
parameter `dbAndTable`. The error of the scan is dropped and leaves the count
at zero. -/
def HasForeignKey {ε : Type} (db : DB ε) (dbAndTable : String → String × String)
    (tableName foreignKeyName : String) : Bool :=
  let (currentDatabase, tableName) := dbAndTable tableName
  let count : Int :=
    match db.QueryRow hasForeignKeyQuery [currentDatabase, tableName, foreignKeyName] with
    | .ok n => n
    | .error _ => 0
  decide (count > 0)

/-- The method `dm.HasTable`; `Except.error` is the panic on the error of the
scan. -/
def HasTable {ε : Type} (db : DB ε) (dbAndTable : String → String × String)
    (tableName : String) : Except ε Bool :=
  let (currentDatabase, tableName) := dbAndTable tableName
  match db.QueryRow (hasTableQuery currentDatabase tableName) [] with
  | .error err => .error err
  | .ok name => if name = 0 then .ok false else .ok true

/-- The method `dm.HasIndex`; `rows.Next()` is true when there is a row. -/
def HasIndex {ε : Type} (db : DB ε) (dbAndTable : String → String × String)
    (tableName indexName : String) : Except ε Bool :=
  let (currentDatabase, tableName) := dbAndTable tableName
  match db.Query (hasIndexQuery currentDatabase tableName) [indexName] with
  | .error err => .error err
  | .ok rows => .ok (!rows.isEmpty)

/-- The method `dm.HasColumn`; `rows.Next()` is true when there is a row. -/
def HasColumn {ε : Type} (db : DB ε) (dbAndTable : String → String × String)
    (tableName columnName : String) : Except ε Bool :=
  let (currentDatabase, tableName) := dbAndTable tableName
  match db.Query (hasColumnQuery currentDatabase tableName) [columnName] with
  | .error err => .error err
  | .ok rows => .ok (!rows.isEmpty)

/-- A database for the examples with the one table `users` of the schema
`APP`, which has the one column `id`, no index and no foreign key. -/
def exampleDB : DB String :=
  { QueryRow := fun q _ => if q = hasTableQuery "APP" "users" then .ok 1 else .ok 0,
    Query := fun q args =>
      if q = hasColumnQuery "APP" "users" ∧ args = ["id"] then .ok [["id"]] else .ok [] }

/-! ## Auxiliary facts -/

theorem append_ne_empty_left (s t : String) (hs : s ≠ "") : s ++ t ≠ "" := by
  intro hst
  apply hs
  have hd : (s ++ t).data = ("" : String).data := by rw [hst]
  rw [String.data_append] at hd
  have : s.data = [] := by
    cases hsd : s.data with
    | nil => rfl
    | cons c cs => rw [hsd] at hd; simp at hd
  exact String.ext this

theorem chosenType_explicit (h : Host) (field : StructField)
    (hT : (h.ParseFieldStructForDialect field).sqlType ≠ "") :
    chosenType h field =
      ((h.ParseFieldStructForDialect field).sqlType, clearAutoIncrement field) := by
  simp [chosenType, hT]

theorem chosenType_inferred (h : Host) (field : StructField)
    (hT : (h.ParseFieldStructForDialect field).sqlType = "") :
    chosenType h field =
      inferType h (h.ParseFieldStructForDialect field).dataValue
        (h.ParseFieldStructForDialect field).size (clearAutoIncrement field) := by
  simp [chosenType, hT]

theorem DataTypeOf_of_chosen (h : Host) (field : StructField)
    (hne : (chosenType h field).1 ≠ "") :
    (DataTypeOf h field).1 =
      if TrimSpace (h.ParseFieldStructForDialect field).additionalType = "" then
        .ok (chosenType h field).1
      else
        .ok ((chosenType h field).1 ++ " "
          ++ (h.ParseFieldStructForDialect field).additionalType) := by
  unfold DataTypeOf
  simp only [hne, if_false]
  split <;> rfl

theorem DataTypeOf_of_chosen_empty (h : Host) (field : StructField)
    (he : (chosenType h field).1 = "") :
    (DataTypeOf h field).1 =
      .error (panicMessage (h.ParseFieldStructForDialect field).dataValue
        (chosenType h field).2) := by
  unfold DataTypeOf
  simp only [he, if_true]


theorem not_endsIn_append (a b : String) (c : Char) (hb : b.data.getLast? = some c)
    (hc : c ≠ 'T') : ¬ endsIn (a ++ b) " AUTO_INCREMENT" := by
  intro hs
  obtain ⟨pre, hpre⟩ := hs
  have h1 : (pre ++ (" AUTO_INCREMENT" : String).data).getLast? = some 'T' := by
    rw [List.getLast?_append]; rfl
  rw [hpre, String.data_append, List.getLast?_append, hb] at h1
  simp at h1
  exact hc h1


/-! ## Claims on `DataTypeOf` -/


/-- C1: when the explicit SQL type of the descriptor is not empty, `DataTypeOf`
does not panic and returns that type, whatever the kind, the size hint, the
primary-key flag and the policy: the type alone when the additional-type
suffix is blank, the type, one space and the suffix otherwise. -/
theorem DataTypeOf_explicit_type (h : Host) (field : StructField)
    (hT : (h.ParseFieldStructForDialect field).sqlType ≠ "") :
    (TrimSpace (h.ParseFieldStructForDialect field).additionalType = "" →
      (DataTypeOf h field).1 = .ok (h.ParseFieldStructForDialect field).sqlType) ∧
    (TrimSpace (h.ParseFieldStructForDialect field).additionalType ≠ "" →
      (DataTypeOf h field).1 =
        .ok ((h.ParseFieldStructForDialect field).sqlType ++ " "
          ++ (h.ParseFieldStructForDialect field).additionalType)) := by
  have hc : (chosenType h field).1 = (h.ParseFieldStructForDialect field).sqlType := by
    rw [chosenType_explicit h field hT]
  have hd := DataTypeOf_of_chosen h field (by rw [hc]; exact hT)
  rw [hc] at hd
  constructor
  · intro hA
    rw [hd, if_pos hA]
  · intro hA
    rw [hd, if_neg hA]


/-- C1 (witness): an 8-bit primary key the policy qualifies, with the explicit
type `serial` and the suffix `NOT NULL`, gets `serial NOT NULL`. -/
theorem DataTypeOf_explicit_type_witness :
    (DataTypeOf (constHost ⟨valueOf .Int8, "serial", 10, "NOT NULL"⟩)
      (plainField "ID" true)).1 = .ok "serial NOT NULL" :=
  (DataTypeOf_explicit_type (constHost ⟨valueOf .Int8, "serial", 10, "NOT NULL"⟩)
    (plainField "ID" true) (by decide)).2 (by decide)

/-- C2 (counterexample): a primary key of kind `int64` with the setting
`AUTO_INCREMENT` = `false`, no explicit type and no suffix is not qualified by a
policy that reads the setting, and yet `DataTypeOf` returns
`bigint AUTO_INCREMENT`, not `bigint`: the setting is cleared before the
policy is queried. -/
theorem DataTypeOf_plain_table_setting_cleared :
    settingPolicy (taggedField "ID" true "AUTO_INCREMENT" "false") = false ∧
    ((settingHost ⟨valueOf .Int64, "", 255, ""⟩).ParseFieldStructForDialect
      (taggedField "ID" true "AUTO_INCREMENT" "false")).sqlType = "" ∧
    TrimSpace ((settingHost ⟨valueOf .Int64, "", 255, ""⟩).ParseFieldStructForDialect
      (taggedField "ID" true "AUTO_INCREMENT" "false")).additionalType = "" ∧
    ((settingHost ⟨valueOf .Int64, "", 255, ""⟩).ParseFieldStructForDialect
      (taggedField "ID" true "AUTO_INCREMENT" "false")).dataValue.kind = .Int64 ∧
    (DataTypeOf (settingHost ⟨valueOf .Int64, "", 255, ""⟩)
      (taggedField "ID" true "AUTO_INCREMENT" "false")).1 = .ok "bigint AUTO_INCREMENT" ∧
    (DataTypeOf (settingHost ⟨valueOf .Int64, "", 255, ""⟩)
      (taggedField "ID" true "AUTO_INCREMENT" "false")).1 ≠ .ok "bigint" := by
  refine ⟨by decide, rfl, by decide, rfl, rfl, ?_⟩
  intro hc
  have h1 : (DataTypeOf (settingHost ⟨valueOf .Int64, "", 255, ""⟩)
      (taggedField "ID" true "AUTO_INCREMENT" "false")).1 = .ok "bigint AUTO_INCREMENT" := rfl
  rw [h1] at hc
  injection hc with hc
  revert hc
  decide

/-- C2 (amended): with no explicit type, a blank suffix and a field the policy
does not qualify when it is queried on the descriptor with the
`AUTO_INCREMENT` setting cleared, as `DataTypeOf` queries it, `DataTypeOf`
returns the plain type of the mapping table for bool, the integer kinds and
the float kinds. -/
theorem DataTypeOf_plain_table (h : Host) (field : StructField)
    (hT : (h.ParseFieldStructForDialect field).sqlType = "")
    (hA : TrimSpace (h.ParseFieldStructForDialect field).additionalType = "")
    (hno : h.fieldCanAutoIncrement (clearAutoIncrement field) = false) :
    ((h.ParseFieldStructForDialect field).dataValue.kind = .Bool →
      (DataTypeOf h field).1 = .ok "int") ∧
    ((h.ParseFieldStructForDialect field).dataValue.kind = .Int8 →
      (DataTypeOf h field).1 = .ok "tinyint") ∧
    ((h.ParseFieldStructForDialect field).dataValue.kind = .Int ∨
      (h.ParseFieldStructForDialect field).dataValue.kind = .Int16 ∨
      (h.ParseFieldStructForDialect field).dataValue.kind = .Int32 →
      (DataTypeOf h field).1 = .ok "int") ∧
    ((h.ParseFieldStructForDialect field).dataValue.kind = .Uint8 →
      (DataTypeOf h field).1 = .ok "tinyint unsigned") ∧
    ((h.ParseFieldStructForDialect field).dataValue.kind = .Uint ∨
      (h.ParseFieldStructForDialect field).dataValue.kind = .Uint16 ∨
      (h.ParseFieldStructForDialect field).dataValue.kind = .Uint32 ∨
      (h.ParseFieldStructForDialect field).dataValue.kind = .Uintptr →
      (DataTypeOf h field).1 = .ok "int unsigned") ∧
    ((h.ParseFieldStructForDialect field).dataValue.kind = .Int64 →
      (DataTypeOf h field).1 = .ok "bigint") ∧
    ((h.ParseFieldStructForDialect field).dataValue.kind = .Uint64 →
      (DataTypeOf h field).1 = .ok "bigint unsigned") ∧
    ((h.ParseFieldStructForDialect field).dataValue.kind = .Float32 ∨
      (h.ParseFieldStructForDialect field).dataValue.kind = .Float64 →
      (DataTypeOf h field).1 = .ok "double") := by
  have key : ∀ t : String, t ≠ "" →
      (inferType h (h.ParseFieldStructForDialect field).dataValue
        (h.ParseFieldStructForDialect field).size (clearAutoIncrement field)).1 = t →
      (DataTypeOf h field).1 = .ok t := by
    intro t ht hi
    have hc : (chosenType h field).1 = t := by rw [chosenType_inferred h field hT, hi]
    rw [DataTypeOf_of_chosen h field (by rw [hc]; exact ht), if_pos hA, hc]
  refine ⟨?_, ?_, ?_, ?_, ?_, ?_, ?_, ?_⟩
  · intro hk
    exact key _ (by decide) (by simp [inferType, hk])
  · intro hk
    exact key _ (by decide) (by simp [inferType, hk, autoIncrementArm, hno])
  · intro hk
    rcases hk with hk | hk | hk <;>
      exact key _ (by decide) (by simp [inferType, hk, autoIncrementArm, hno])
  · intro hk
    exact key _ (by decide) (by simp [inferType, hk, autoIncrementArm, hno])
  · intro hk
    rcases hk with hk | hk | hk | hk <;>
      exact key _ (by decide) (by simp [inferType, hk, autoIncrementArm, hno])
  · intro hk
    exact key _ (by decide) (by simp [inferType, hk, autoIncrementArm, hno])
  · intro hk
    exact key _ (by decide) (by simp [inferType, hk, autoIncrementArm, hno])
  · intro hk
    rcases hk with hk | hk <;>
      exact key _ (by decide) (by simp [inferType, hk])


/-- C2 (witness): a pointer-sized unsigned field that is no primary key gets
`int unsigned`, although it carries the setting `AUTO_INCREMENT`. -/
theorem DataTypeOf_plain_table_witness :
    (DataTypeOf (constHost ⟨valueOf .Uintptr, "", 255, ""⟩)
      (taggedField "Addr" false "AUTO_INCREMENT" "AUTO_INCREMENT")).1 = .ok "int unsigned" :=
  (DataTypeOf_plain_table (constHost ⟨valueOf .Uintptr, "", 255, ""⟩)
    (taggedField "Addr" false "AUTO_INCREMENT" "AUTO_INCREMENT") rfl (by decide) rfl).2.2.2.2.1
    (Or.inr (Or.inr (Or.inr rfl)))

theorem autoIncrementArm_fst (h : Host) (field : StructField) (plain : String) :
    (autoIncrementArm h field plain).1 =
      if h.fieldCanAutoIncrement field = true then plain ++ " AUTO_INCREMENT" else plain := by
  unfold autoIncrementArm
  split <;> rfl

theorem inferType_time_not_auto (h : Host) (v : Value) (size : Int) (field : StructField)
    (hk : v.kind = .Struct) : ¬ endsIn (inferType h v size field).1 " AUTO_INCREMENT" := by
  simp only [inferType, hk]
  cases v.isTime with
  | false =>
    simp only [Bool.false_eq_true, if_false]
    exact (by decide : ¬ endsIn "" " AUTO_INCREMENT")
  | true =>
    simp only [if_true]
    cases TagSettingsGet field "PRECISION" with
    | none =>
      split
      · exact (by decide : ¬ endsIn "DATETIME" " AUTO_INCREMENT")
      · exact (by decide : ¬ endsIn "DATETIME NULL" " AUTO_INCREMENT")
    | some p =>
      split
      · simp only []
        rw [← String.append_assoc]
        exact not_endsIn_append _ ")" ')' rfl (by decide)
      · simp only []
        exact not_endsIn_append _ " NULL" 'L' rfl (by decide)

theorem inferType_string_not_auto (h : Host) (v : Value) (size : Int) (field : StructField)
    (hk : v.kind = .String) : ¬ endsIn (inferType h v size field).1 " AUTO_INCREMENT" := by
  simp only [inferType, hk]
  split
  · exact not_endsIn_append _ ")" ')' rfl (by decide)
  · exact (by decide : ¬ endsIn "varchar(102400)" " AUTO_INCREMENT")

theorem bytes_not_auto (v : Value) (size : Int) (field : StructField) :
    ¬ endsIn (if IsByteArrayOrSlice v = true then
        if size > 0 ∧ size < 65532 then ("varbinary(" ++ fmtInt size ++ ")", field)
        else ("longblob", field)
      else (("", field) : String × StructField)).1 " AUTO_INCREMENT" := by
  split
  · split
    · exact not_endsIn_append _ ")" ')' rfl (by decide)
    · exact (by decide : ¬ endsIn "longblob" " AUTO_INCREMENT")
  · exact (by decide : ¬ endsIn "" " AUTO_INCREMENT")

/-- C3 (counterexample): with a policy that reads the setting, both
directions of the claim fail on the descriptor as it is passed. A primary key
of kind `int64` with `AUTO_INCREMENT` = `false` is not qualified and gets
`bigint AUTO_INCREMENT`; a field of kind `uintptr` that is no primary key and
has `AUTO_INCREMENT` = `AUTO_INCREMENT` is qualified and gets `int unsigned`. -/
theorem chosenType_auto_increment_setting_cleared :
    (isIntegerKind Kind.Int64 ∧
      settingPolicy (taggedField "ID" true "AUTO_INCREMENT" "false") = false ∧
      (chosenType (settingHost ⟨valueOf .Int64, "", 255, ""⟩)
        (taggedField "ID" true "AUTO_INCREMENT" "false")).1 = "bigint AUTO_INCREMENT" ∧
      endsIn (chosenType (settingHost ⟨valueOf .Int64, "", 255, ""⟩)
        (taggedField "ID" true "AUTO_INCREMENT" "false")).1 " AUTO_INCREMENT") ∧
    (isIntegerKind Kind.Uintptr ∧
      settingPolicy (taggedField "Addr" false "AUTO_INCREMENT" "AUTO_INCREMENT") = true ∧
      (chosenType (settingHost ⟨valueOf .Uintptr, "", 255, ""⟩)
        (taggedField "Addr" false "AUTO_INCREMENT" "AUTO_INCREMENT")).1 = "int unsigned" ∧
      ¬ endsIn (chosenType (settingHost ⟨valueOf .Uintptr, "", 255, ""⟩)
        (taggedField "Addr" false "AUTO_INCREMENT" "AUTO_INCREMENT")).1 " AUTO_INCREMENT") := by
  refine ⟨⟨by decide, by decide, rfl, ?_⟩, ⟨by decide, by decide, rfl, ?_⟩⟩
  · exact (by decide : endsIn "bigint AUTO_INCREMENT" " AUTO_INCREMENT")
  · exact (by decide : ¬ endsIn "int unsigned" " AUTO_INCREMENT")

/-- C3 (amended): with no explicit type, the column type `DataTypeOf` chooses
ends in ` AUTO_INCREMENT` exactly when the kind is one of the eleven integer
kinds and the policy, queried on the descriptor once its `AUTO_INCREMENT`
setting is cleared, qualifies the field; the type is then the plain type of
the kind followed by ` AUTO_INCREMENT`. Bool, float, string, time and
byte-sequence fields are no integer kinds, so they get no such variant. -/
theorem chosenType_auto_increment_iff (h : Host) (field : StructField)
    (hT : (h.ParseFieldStructForDialect field).sqlType = "") :
    (endsIn (chosenType h field).1 " AUTO_INCREMENT" ↔
      isIntegerKind (h.ParseFieldStructForDialect field).dataValue.kind ∧
        h.fieldCanAutoIncrement (clearAutoIncrement field) = true) ∧
    (h.fieldCanAutoIncrement (clearAutoIncrement field) = true →
      ((h.ParseFieldStructForDialect field).dataValue.kind = .Int8 →
        (chosenType h field).1 = "tinyint" ++ " AUTO_INCREMENT") ∧
      ((h.ParseFieldStructForDialect field).dataValue.kind = .Int ∨
        (h.ParseFieldStructForDialect field).dataValue.kind = .Int16 ∨
        (h.ParseFieldStructForDialect field).dataValue.kind = .Int32 →
        (chosenType h field).1 = "int" ++ " AUTO_INCREMENT") ∧
      ((h.ParseFieldStructForDialect field).dataValue.kind = .Uint8 →
        (chosenType h field).1 = "tinyint unsigned" ++ " AUTO_INCREMENT") ∧
      ((h.ParseFieldStructForDialect field).dataValue.kind = .Uint ∨
        (h.ParseFieldStructForDialect field).dataValue.kind = .Uint16 ∨
        (h.ParseFieldStructForDialect field).dataValue.kind = .Uint32 ∨
        (h.ParseFieldStructForDialect field).dataValue.kind = .Uintptr →
        (chosenType h field).1 = "int unsigned" ++ " AUTO_INCREMENT") ∧
      ((h.ParseFieldStructForDialect field).dataValue.kind = .Int64 →
        (chosenType h field).1 = "bigint" ++ " AUTO_INCREMENT") ∧
      ((h.ParseFieldStructForDialect field).dataValue.kind = .Uint64 →
        (chosenType h field).1 = "bigint unsigned" ++ " AUTO_INCREMENT")) ∧
    (¬ isIntegerKind (h.ParseFieldStructForDialect field).dataValue.kind →
      ¬ endsIn (chosenType h field).1 " AUTO_INCREMENT") := by
  rw [chosenType_inferred h field hT]
  generalize (h.ParseFieldStructForDialect field).dataValue = v
  generalize (h.ParseFieldStructForDialect field).size = size
  generalize clearAutoIncrement field = f
  have hiff : endsIn (inferType h v size f).1 " AUTO_INCREMENT" ↔
      isIntegerKind v.kind ∧ h.fieldCanAutoIncrement f = true := by
    cases hk : v.kind
    case Struct =>
      have := inferType_time_not_auto h v size f hk
      simp [this, isIntegerKind]
    case String =>
      have := inferType_string_not_auto h v size f hk
      simp [this, isIntegerKind]
    all_goals first
      | (have hb := bytes_not_auto v size f
         simp only [inferType, hk]
         simp [hb, isIntegerKind]
         done)
      | (simp only [inferType, hk, autoIncrementArm_fst]
         cases h.fieldCanAutoIncrement f <;> simp [isIntegerKind] <;> decide)
  refine ⟨hiff, ?_, ?_⟩
  · intro hcan
    refine ⟨?_, ?_, ?_, ?_, ?_, ?_⟩
    · intro hk
      simp [inferType, hk, autoIncrementArm, hcan]
    · intro hk
      rcases hk with hk | hk | hk <;> simp [inferType, hk, autoIncrementArm, hcan]
    · intro hk
      simp [inferType, hk, autoIncrementArm, hcan]
    · intro hk
      rcases hk with hk | hk | hk | hk <;> simp [inferType, hk, autoIncrementArm, hcan]
    · intro hk
      simp [inferType, hk, autoIncrementArm, hcan]
    · intro hk
      simp [inferType, hk, autoIncrementArm, hcan]
  · intro hni hend
    exact hni (hiff.mp hend).1

/-- C3 (witness): a 64-bit primary key qualified by the policy gets
`bigint AUTO_INCREMENT`. -/
theorem chosenType_auto_increment_iff_witness :
    (chosenType (constHost ⟨valueOf .Int64, "", 255, ""⟩) (plainField "ID" true)).1
      = "bigint AUTO_INCREMENT" :=
  ((chosenType_auto_increment_iff (constHost ⟨valueOf .Int64, "", 255, ""⟩)
    (plainField "ID" true) rfl).2.1 rfl).2.2.2.2.1 rfl

theorem clearAutoIncrement_get (field : StructField) (key : String)
    (hkey : key ≠ "AUTO_INCREMENT") :
    (clearAutoIncrement field).TagSettings key = field.TagSettings key := by
  unfold clearAutoIncrement
  split
  · simp [TagSettingsDelete, hkey]
  · rfl

theorem clearAutoIncrement_pk (field : StructField) :
    (clearAutoIncrement field).IsPrimaryKey = field.IsPrimaryKey := by
  unfold clearAutoIncrement
  split <;> rfl

theorem clearAutoIncrement_name (field : StructField) :
    (clearAutoIncrement field).Name = field.Name := by
  unfold clearAutoIncrement
  split <;> rfl

theorem DataTypeOf_of_inferred (h : Host) (field : StructField) (t : String)
    (hT : (h.ParseFieldStructForDialect field).sqlType = "")
    (hA : TrimSpace (h.ParseFieldStructForDialect field).additionalType = "")
    (ht : t ≠ "")
    (hi : (inferType h (h.ParseFieldStructForDialect field).dataValue
        (h.ParseFieldStructForDialect field).size (clearAutoIncrement field)).1 = t) :
    (DataTypeOf h field).1 = .ok t := by
  have hc : (chosenType h field).1 = t := by rw [chosenType_inferred h field hT, hi]
  rw [DataTypeOf_of_chosen h field (by rw [hc]; exact ht), if_pos hA, hc]

/-- C4: a string field with no explicit type and a blank suffix gets
`varchar(<size>)`, the size in decimal, when `0 < size < 65532`, and
`varchar(102400)` for every other size; size 65531 gives `varchar(65531)`,
size 65532 gives `varchar(102400)`. -/
theorem DataTypeOf_string (h : Host) (field : StructField)
    (hT : (h.ParseFieldStructForDialect field).sqlType = "")
    (hA : TrimSpace (h.ParseFieldStructForDialect field).additionalType = "")
    (hk : (h.ParseFieldStructForDialect field).dataValue.kind = .String) :
    (0 < (h.ParseFieldStructForDialect field).size ∧
        (h.ParseFieldStructForDialect field).size < 65532 →
      (DataTypeOf h field).1 =
        .ok ("varchar(" ++ fmtInt (h.ParseFieldStructForDialect field).size ++ ")")) ∧
    (¬ (0 < (h.ParseFieldStructForDialect field).size ∧
        (h.ParseFieldStructForDialect field).size < 65532) →
      (DataTypeOf h field).1 = .ok "varchar(102400)") ∧
    ((h.ParseFieldStructForDialect field).size = 65531 →
      (DataTypeOf h field).1 = .ok "varchar(65531)") ∧
    ((h.ParseFieldStructForDialect field).size = 65532 →
      (DataTypeOf h field).1 = .ok "varchar(102400)") := by
  have hpos : 0 < (h.ParseFieldStructForDialect field).size ∧
        (h.ParseFieldStructForDialect field).size < 65532 →
      (DataTypeOf h field).1 =
        .ok ("varchar(" ++ fmtInt (h.ParseFieldStructForDialect field).size ++ ")") := by
    intro hs
    refine DataTypeOf_of_inferred h field _ hT hA ?_ ?_
    · rw [String.append_assoc]
      exact append_ne_empty_left _ _ (by decide)
    · simp only [inferType, hk]
      rw [if_pos hs]
  have hneg : ¬ (0 < (h.ParseFieldStructForDialect field).size ∧
        (h.ParseFieldStructForDialect field).size < 65532) →
      (DataTypeOf h field).1 = .ok "varchar(102400)" := by
    intro hs
    refine DataTypeOf_of_inferred h field _ hT hA (by decide) ?_
    simp only [inferType, hk]
    rw [if_neg hs]
  refine ⟨hpos, hneg, ?_, ?_⟩
  · intro hs
    have := hpos (by rw [hs]; decide)
    rw [hs] at this
    exact this
  · intro hs
    exact hneg (by rw [hs]; decide)

/-- C4 (witness): a string field of size 255 gets `varchar(255)`. -/
theorem DataTypeOf_string_witness :
    (DataTypeOf (constHost ⟨valueOf .String, "", 255, ""⟩) (plainField "Name" false)).1
      = .ok "varchar(255)" :=
  (DataTypeOf_string (constHost ⟨valueOf .String, "", 255, ""⟩) (plainField "Name" false)
    rfl (by decide) rfl).1 (by decide)

/-- C5: a `time.Time` field with no explicit type and a blank suffix gets
`DATETIME`, then `(p)` when the setting `PRECISION` is present with value `p`,
then ` NULL` exactly when the field has no setting `NOT NULL` and is no
primary key. -/
theorem DataTypeOf_time (h : Host) (field : StructField)
    (hT : (h.ParseFieldStructForDialect field).sqlType = "")
    (hA : TrimSpace (h.ParseFieldStructForDialect field).additionalType = "")
    (hk : (h.ParseFieldStructForDialect field).dataValue.kind = .Struct)
    (ht : (h.ParseFieldStructForDialect field).dataValue.isTime = true) :
    (∀ p, field.TagSettings "PRECISION" = some p →
      (field.TagSettings "NOT NULL" = none ∧ field.IsPrimaryKey = false →
        (DataTypeOf h field).1 = .ok ("DATETIME" ++ "(" ++ p ++ ")" ++ " NULL")) ∧
      (¬ (field.TagSettings "NOT NULL" = none ∧ field.IsPrimaryKey = false) →
        (DataTypeOf h field).1 = .ok ("DATETIME" ++ "(" ++ p ++ ")"))) ∧
    (field.TagSettings "PRECISION" = none →
      (field.TagSettings "NOT NULL" = none ∧ field.IsPrimaryKey = false →
        (DataTypeOf h field).1 = .ok "DATETIME NULL") ∧
      (¬ (field.TagSettings "NOT NULL" = none ∧ field.IsPrimaryKey = false) →
        (DataTypeOf h field).1 = .ok "DATETIME")) := by
  have hprec := clearAutoIncrement_get field "PRECISION" (by decide)
  have hnn := clearAutoIncrement_get field "NOT NULL" (by decide)
  have hpk := clearAutoIncrement_pk field
  have hdt : ∀ s : String, "DATETIME" ++ s ≠ "" := fun s =>
    append_ne_empty_left _ _ (by decide)
  refine ⟨fun p hp => ⟨fun hn => ?_, fun hn => ?_⟩, fun hp => ⟨fun hn => ?_, fun hn => ?_⟩⟩
  · refine DataTypeOf_of_inferred h field _ hT hA ?_ ?_
    · simp only [String.append_assoc]; exact hdt _
    · simp [inferType, hk, ht, TagSettingsGet, hprec, hnn, hpk, hp, hn.1, hn.2,
        String.append_assoc]
      rw [← String.append_assoc]
      rfl
  · refine DataTypeOf_of_inferred h field _ hT hA ?_ ?_
    · simp only [String.append_assoc]; exact hdt _
    · have hn2 : (field.TagSettings "NOT NULL").isSome = true ∨ field.IsPrimaryKey = true := by
        by_contra hcon
        apply hn
        rw [not_or] at hcon
        constructor
        · cases hx : field.TagSettings "NOT NULL" with
          | none => rfl
          | some v => rw [hx] at hcon; simp at hcon
        · simpa using hcon.2
      simp [inferType, hk, ht, TagSettingsGet, hprec, hnn, hpk, hp, hn2,
        String.append_assoc]
      rw [← String.append_assoc]
      rfl
  · refine DataTypeOf_of_inferred h field _ hT hA (by decide) ?_
    simp [inferType, hk, ht, TagSettingsGet, hprec, hnn, hpk, hp, hn.1, hn.2]
  · refine DataTypeOf_of_inferred h field _ hT hA (by decide) ?_
    have hn2 : (field.TagSettings "NOT NULL").isSome = true ∨ field.IsPrimaryKey = true := by
      by_contra hcon
      apply hn
      rw [not_or] at hcon
      constructor
      · cases hx : field.TagSettings "NOT NULL" with
        | none => rfl
        | some v => rw [hx] at hcon; simp at hcon
      · simpa using hcon.2
    simp [inferType, hk, ht, TagSettingsGet, hprec, hnn, hpk, hp, hn2]

/-- C5 (witness): a nullable `time.Time` field with `PRECISION` 3 gets
`DATETIME(3) NULL`. -/
theorem DataTypeOf_time_witness :
    (DataTypeOf (constHost ⟨valueOf .Struct, "", 255, ""⟩)
      (taggedField "CreatedAt" false "PRECISION" "3")).1 = .ok "DATETIME(3) NULL" :=
  ((DataTypeOf_time (constHost ⟨valueOf .Struct, "", 255, ""⟩)
    (taggedField "CreatedAt" false "PRECISION" "3") rfl (by decide) rfl rfl).1 "3"
      (by decide)).1 ⟨by decide, rfl⟩

theorem inferType_bytes (h : Host) (v : Value) (size : Int) (field : StructField)
    (hb : IsByteArrayOrSlice v = true) :
    (inferType h v size field).1 =
      if size > 0 ∧ size < 65532 then "varbinary(" ++ fmtInt size ++ ")" else "longblob" := by
  have hk : v.kind = .Array ∨ v.kind = .Slice := by
    simp [IsByteArrayOrSlice] at hb
    exact hb.1
  rcases hk with hk | hk
  · simp only [inferType, hk]
    simp only [hb, if_true]
    split <;> rfl
  · simp only [inferType, hk]
    simp only [hb, if_true]
    split <;> rfl

/-- C6 (counterexample): a byte slice with the positive size hint 70000, no
explicit type and no suffix gets `longblob`, not `varbinary(70000)`. -/
theorem DataTypeOf_bytes_large_size :
    IsByteArrayOrSlice (valueOf .Slice) = true ∧ (0 : Int) < 70000 ∧
    (DataTypeOf (constHost ⟨valueOf .Slice, "", 70000, ""⟩) (plainField "Blob" false)).1
      = .ok "longblob" ∧
    (DataTypeOf (constHost ⟨valueOf .Slice, "", 70000, ""⟩) (plainField "Blob" false)).1
      ≠ .ok ("varbinary(" ++ fmtInt 70000 ++ ")") := by
  refine ⟨by decide, by decide, rfl, ?_⟩
  intro hc
  have h1 : (DataTypeOf (constHost ⟨valueOf .Slice, "", 70000, ""⟩)
      (plainField "Blob" false)).1 = .ok "longblob" := rfl
  rw [h1] at hc
  injection hc with hc
  revert hc
  decide

/-- C6 (amended): a byte array or slice with no explicit type and a blank
suffix gets `varbinary(<size>)` when `0 < size < 65532` and `longblob` for
every other size hint. -/
theorem DataTypeOf_bytes (h : Host) (field : StructField)
    (hT : (h.ParseFieldStructForDialect field).sqlType = "")
    (hA : TrimSpace (h.ParseFieldStructForDialect field).additionalType = "")
    (hb : IsByteArrayOrSlice (h.ParseFieldStructForDialect field).dataValue = true) :
    (0 < (h.ParseFieldStructForDialect field).size ∧
        (h.ParseFieldStructForDialect field).size < 65532 →
      (DataTypeOf h field).1 =
        .ok ("varbinary(" ++ fmtInt (h.ParseFieldStructForDialect field).size ++ ")")) ∧
    (¬ (0 < (h.ParseFieldStructForDialect field).size ∧
        (h.ParseFieldStructForDialect field).size < 65532) →
      (DataTypeOf h field).1 = .ok "longblob") := by
  have hi := inferType_bytes h (h.ParseFieldStructForDialect field).dataValue
    (h.ParseFieldStructForDialect field).size (clearAutoIncrement field) hb
  constructor
  · intro hs
    refine DataTypeOf_of_inferred h field _ hT hA ?_ ?_
    · rw [String.append_assoc]
      exact append_ne_empty_left _ _ (by decide)
    · rw [hi, if_pos hs]
  · intro hs
    refine DataTypeOf_of_inferred h field _ hT hA (by decide) ?_
    rw [hi, if_neg hs]

/-- C6 (witness): a byte array of size 16 gets `varbinary(16)`. -/
theorem DataTypeOf_bytes_witness :
    (DataTypeOf (constHost ⟨valueOf .Array, "", 16, ""⟩) (plainField "Hash" false)).1
      = .ok "varbinary(16)" :=
  (DataTypeOf_bytes (constHost ⟨valueOf .Array, "", 16, ""⟩) (plainField "Hash" false)
    rfl (by decide) (by decide)).1 (by decide)

theorem autoIncrementArm_ne_empty (h : Host) (field : StructField) (plain : String)
    (hp : plain ≠ "") : (autoIncrementArm h field plain).1 ≠ "" := by
  rw [autoIncrementArm_fst]
  split
  · exact append_ne_empty_left _ _ hp
  · exact hp

theorem autoIncrementArm_name (h : Host) (field : StructField) (plain : String) :
    (autoIncrementArm h field plain).2.Name = field.Name := by
  unfold autoIncrementArm
  split <;> rfl

theorem inferType_name (h : Host) (v : Value) (size : Int) (field : StructField) :
    (inferType h v size field).2.Name = field.Name := by
  unfold inferType
  split <;> (try exact autoIncrementArm_name h field _) <;> (try rfl)
  · split <;> rfl
  · split
    · split <;> (simp only []; split <;> rfl)
    · rfl
  · split
    · split <;> rfl
    · rfl

theorem inferType_empty_iff (h : Host) (v : Value) (size : Int) (field : StructField) :
    (inferType h v size field).1 = "" ↔ ¬ inMappingTable v := by
  cases hk : v.kind
  case Struct =>
    cases ht : v.isTime
    · simp [inferType, hk, ht, inMappingTable, isIntegerKind, IsByteArrayOrSlice]
    · have hne : (inferType h v size field).1 ≠ "" := by
        simp only [inferType, hk, ht, if_true]
        split
        · exact append_ne_empty_left _ _ (by decide)
        · rw [String.append_assoc]
          exact append_ne_empty_left _ _ (by decide)
      simp [hne, inMappingTable, hk, ht]
  case String =>
    have hne : (inferType h v size field).1 ≠ "" := by
      simp only [inferType, hk]
      split
      · rw [String.append_assoc]
        exact append_ne_empty_left _ _ (by decide)
      · exact (by decide : "varchar(102400)" ≠ "")
    simp [hne, inMappingTable, hk]
  case Bool =>
    simp [inferType, hk, inMappingTable]
  case Float32 =>
    simp [inferType, hk, inMappingTable]
  case Float64 =>
    simp [inferType, hk, inMappingTable]
  all_goals first
    | (have hne : (inferType h v size field).1 ≠ "" := by
         simp only [inferType, hk]
         exact autoIncrementArm_ne_empty h field _ (by decide)
       simp [hne, inMappingTable, isIntegerKind, hk])
    | (cases hb : IsByteArrayOrSlice v
       · simp [inferType, hk, hb, inMappingTable, isIntegerKind]
       · have hne : (inferType h v size field).1 ≠ "" := by
           simp only [inferType, hk, hb, if_true]
           split
           · rw [String.append_assoc]
             exact append_ne_empty_left _ _ (by decide)
           · exact (by decide : "longblob" ≠ "")
         simp [hne, inMappingTable, hb])

theorem chosenType_empty_iff (h : Host) (field : StructField) :
    (chosenType h field).1 = "" ↔
      (h.ParseFieldStructForDialect field).sqlType = "" ∧
        ¬ inMappingTable (h.ParseFieldStructForDialect field).dataValue := by
  by_cases hT : (h.ParseFieldStructForDialect field).sqlType = ""
  · rw [chosenType_inferred h field hT, inferType_empty_iff]
    simp [hT]
  · rw [chosenType_explicit h field hT]
    simp [hT]

theorem chosenType_name (h : Host) (field : StructField) :
    (chosenType h field).2.Name = field.Name := by
  by_cases hT : (h.ParseFieldStructForDialect field).sqlType = ""
  · rw [chosenType_inferred h field hT, inferType_name, clearAutoIncrement_name]
  · rw [chosenType_explicit h field hT]
    exact clearAutoIncrement_name field

theorem DataTypeOf_panic_cases (h : Host) (field : StructField) :
    ((∃ msg, (DataTypeOf h field).1 = .error msg) ↔
      ((h.ParseFieldStructForDialect field).sqlType = "" ∧
        ¬ inMappingTable (h.ParseFieldStructForDialect field).dataValue)) ∧
    (∀ msg, (DataTypeOf h field).1 = .error msg →
      ∃ pre post, msg = pre ++ field.Name ++ post) ∧
    (¬ ((h.ParseFieldStructForDialect field).sqlType = "" ∧
        ¬ inMappingTable (h.ParseFieldStructForDialect field).dataValue) →
      ∃ s, (DataTypeOf h field).1 = .ok s ∧ s ≠ "") := by
  rw [← chosenType_empty_iff]
  by_cases hc : (chosenType h field).1 = ""
  · have hd := DataTypeOf_of_chosen_empty h field hc
    refine ⟨⟨fun _ => hc, fun _ => ⟨_, hd⟩⟩, ?_, fun hn => absurd hc hn⟩
    intro msg hmsg
    rw [hd] at hmsg
    injection hmsg with hmsg
    refine ⟨"invalid sql type " ++ (h.ParseFieldStructForDialect field).dataValue.typeName
      ++ " (" ++ kindString (h.ParseFieldStructForDialect field).dataValue.kind
      ++ ") in field ", " for dm", ?_⟩
    rw [← hmsg, panicMessage, chosenType_name]
  · have hd := DataTypeOf_of_chosen h field hc
    have hok : ∃ s, (DataTypeOf h field).1 = .ok s ∧ s ≠ "" := by
      by_cases hA : TrimSpace (h.ParseFieldStructForDialect field).additionalType = ""
      · rw [if_pos hA] at hd
        exact ⟨_, hd, hc⟩
      · rw [if_neg hA] at hd
        refine ⟨_, hd, ?_⟩
        rw [String.append_assoc]
        exact append_ne_empty_left _ _ hc
    refine ⟨⟨?_, fun hcc => absurd hcc hc⟩, ?_, fun _ => hok⟩
    · rintro ⟨msg, hmsg⟩
      obtain ⟨s, hs, _⟩ := hok
      rw [hs] at hmsg
      cases hmsg
    · intro msg hmsg
      obtain ⟨s, hs, _⟩ := hok
      rw [hs] at hmsg
      cases hmsg

/-- C7: `DataTypeOf` panics exactly when the descriptor has no explicit type
and its kind is outside the mapping table; the panic message contains the
name of the field; on every other descriptor the result is a non-empty
string. A struct other than `time.Time`, a map and a slice of
non-bytes panic, with the message of source line 121. -/
theorem DataTypeOf_panic_iff (h : Host) (field : StructField) :
    ((∃ msg, (DataTypeOf h field).1 = .error msg) ↔
      ((h.ParseFieldStructForDialect field).sqlType = "" ∧
        ¬ inMappingTable (h.ParseFieldStructForDialect field).dataValue)) ∧
    (∀ msg, (DataTypeOf h field).1 = .error msg →
      ∃ pre post, msg = pre ++ field.Name ++ post) ∧
    (¬ ((h.ParseFieldStructForDialect field).sqlType = "" ∧
        ¬ inMappingTable (h.ParseFieldStructForDialect field).dataValue) →
      ∃ s, (DataTypeOf h field).1 = .ok s ∧ s ≠ "") ∧
    ((h.ParseFieldStructForDialect field).sqlType = "" →
      ((h.ParseFieldStructForDialect field).dataValue.kind = .Struct ∧
          (h.ParseFieldStructForDialect field).dataValue.isTime = false) ∨
        (h.ParseFieldStructForDialect field).dataValue.kind = .Map ∨
        ((h.ParseFieldStructForDialect field).dataValue.kind = .Slice ∧
          (h.ParseFieldStructForDialect field).dataValue.elemIsUint8 = false) →
      (DataTypeOf h field).1 =
        .error (panicMessage (h.ParseFieldStructForDialect field).dataValue field)) := by
  obtain ⟨h1, h2, h3⟩ := DataTypeOf_panic_cases h field
  refine ⟨h1, h2, h3, ?_⟩
  intro hT hk
  have hnot : ¬ inMappingTable (h.ParseFieldStructForDialect field).dataValue := by
    rcases hk with ⟨hk, ht⟩ | hk | ⟨hk, he⟩
    · simp [inMappingTable, isIntegerKind, IsByteArrayOrSlice, hk, ht]
    · simp [inMappingTable, isIntegerKind, IsByteArrayOrSlice, hk]
    · simp [inMappingTable, isIntegerKind, IsByteArrayOrSlice, hk, he]
  have hc := (chosenType_empty_iff h field).mpr ⟨hT, hnot⟩
  rw [DataTypeOf_of_chosen_empty h field hc]
  simp only [panicMessage, chosenType_name]

theorem dropWhile_all_iff (p : Char → Bool) (l : List Char) :
    (∀ c ∈ l.dropWhile p, p c = true) ↔ ∀ c ∈ l, p c = true := by
  induction l with
  | nil => simp
  | cons a t ih =>
    by_cases ha : p a = true
    · simp [List.dropWhile_cons, ha, ih]
    · simp [List.dropWhile_cons, ha]

theorem trimSpaceList_eq_nil_iff (l : List Char) :
    trimSpaceList l = [] ↔ ∀ c ∈ l, isSpace c = true := by
  unfold trimSpaceList
  rw [List.reverse_eq_nil_iff, List.dropWhile_eq_nil_iff]
  simp only [List.mem_reverse]
  exact dropWhile_all_iff isSpace l

theorem TrimSpace_eq_empty_iff (s : String) :
    TrimSpace s = "" ↔ ∀ c ∈ s.data, isSpace c = true := by
  rw [← trimSpaceList_eq_nil_iff]
  unfold TrimSpace
  constructor
  · intro hs
    have := congrArg String.data hs
    simpa using this
  · intro hs
    rw [hs]

theorem dropWhile_head_not (p : Char → Bool) (l : List Char) :
    ∀ c, (l.dropWhile p).head? = some c → p c = false := by
  induction l with
  | nil => intro c hc; simp at hc
  | cons a t ih =>
    intro c hc
    by_cases ha : p a = true
    · rw [List.dropWhile_cons, if_pos ha] at hc
      exact ih c hc
    · rw [List.dropWhile_cons, if_neg ha] at hc
      simp only [List.head?_cons, Option.some.injEq] at hc
      rw [← hc]
      simpa using ha

theorem dropWhile_getLast (p : Char → Bool) (l : List Char) (hne : l.dropWhile p ≠ []) :
    (l.dropWhile p).getLast? = l.getLast? := by
  have hsplit := List.takeWhile_append_dropWhile p l
  conv_rhs => rw [← hsplit]
  rw [List.getLast?_append]
  cases hd : (l.dropWhile p).getLast? with
  | none => exact absurd (List.getLast?_eq_none_iff.mp hd) hne
  | some c => rfl

theorem trimSpaceList_ends (l : List Char) :
    (∀ c, (trimSpaceList l).head? = some c → isSpace c = false) ∧
    (∀ c, (trimSpaceList l).getLast? = some c → isSpace c = false) := by
  unfold trimSpaceList
  constructor
  · intro c hc
    rw [List.head?_reverse] at hc
    have hne : ((l.dropWhile isSpace).reverse.dropWhile isSpace) ≠ [] := by
      intro h0
      rw [h0] at hc
      cases hc
    rw [dropWhile_getLast isSpace _ hne, List.getLast?_reverse] at hc
    exact dropWhile_head_not isSpace l c hc
  · intro c hc
    rw [List.getLast?_reverse] at hc
    exact dropWhile_head_not isSpace _ c hc

/-- C8: when `DataTypeOf` succeeds with column type `T` and suffix `A`, the
suffix being trimmed as the field parser returns it, the result is `T` if `A`
is empty or all white space, and otherwise `T`, one space and the trimmed `A`,
which neither begins nor ends with white space. -/
theorem DataTypeOf_suffix (h : Host) (field : StructField)
    (hs : (chosenType h field).1 ≠ "")
    (htrim : TrimSpace (h.ParseFieldStructForDialect field).additionalType
      = (h.ParseFieldStructForDialect field).additionalType) :
    ((∀ c ∈ (h.ParseFieldStructForDialect field).additionalType.data, isSpace c = true) →
      (DataTypeOf h field).1 = .ok (chosenType h field).1) ∧
    (¬ (∀ c ∈ (h.ParseFieldStructForDialect field).additionalType.data, isSpace c = true) →
      (DataTypeOf h field).1 =
        .ok ((chosenType h field).1 ++ " "
          ++ TrimSpace (h.ParseFieldStructForDialect field).additionalType) ∧
      (∀ c, (TrimSpace (h.ParseFieldStructForDialect field).additionalType).data.head?
        = some c → isSpace c = false) ∧
      (∀ c, (TrimSpace (h.ParseFieldStructForDialect field).additionalType).data.getLast?
        = some c → isSpace c = false)) := by
  have hd := DataTypeOf_of_chosen h field hs
  refine ⟨fun hb => ?_, fun hb => ⟨?_, ?_, ?_⟩⟩
  · rw [hd, if_pos ((TrimSpace_eq_empty_iff _).mpr hb)]
  · rw [hd, if_neg (fun he => hb ((TrimSpace_eq_empty_iff _).mp he)), htrim]
  · exact (trimSpaceList_ends _).1
  · exact (trimSpaceList_ends _).2

/-- C8 (witness): a 64-bit primary key with the suffix `NOT NULL UNIQUE` gets
`bigint AUTO_INCREMENT NOT NULL UNIQUE`. -/
theorem DataTypeOf_suffix_witness :
    (DataTypeOf (constHost ⟨valueOf .Int64, "", 255, "NOT NULL UNIQUE"⟩)
      (plainField "ID" true)).1 = .ok "bigint AUTO_INCREMENT NOT NULL UNIQUE" :=
  ((DataTypeOf_suffix (constHost ⟨valueOf .Int64, "", 255, "NOT NULL UNIQUE"⟩)
    (plainField "ID" true) (by decide) (by decide)).2 (by decide)).1

/-! ## Claims on `LimitAndOffsetSQL` -/

theorem empty_append (s : String) : "" ++ s = s := by
  apply String.ext
  simp [String.data_append]

/-- C9: when the limit and the offset are each absent or convertible to an
integer, `LimitAndOffsetSQL` returns no error, and the clause is ` LIMIT l`
followed by ` OFFSET o` for `l ≥ 0` and `o ≥ 0`, ` LIMIT l` alone for `l ≥ 0`
and an absent or negative offset, and empty for an absent or negative limit. -/
theorem LimitAndOffsetSQL_numeric {α ε : Type} (parseInt : α → Except ε Int)
    (limit offset : Option α)
    (hl : ∀ v, limit = some v → ∃ n, parseInt v = .ok n)
    (ho : ∀ v, offset = some v → ∃ n, parseInt v = .ok n) :
    (LimitAndOffsetSQL parseInt limit offset).2 = none ∧
    (∀ vl l vo o, limit = some vl → parseInt vl = .ok l → 0 ≤ l →
      offset = some vo → parseInt vo = .ok o → 0 ≤ o →
      (LimitAndOffsetSQL parseInt limit offset).1
        = " LIMIT " ++ fmtInt l ++ " OFFSET " ++ fmtInt o) ∧
    (∀ vl l, limit = some vl → parseInt vl = .ok l → 0 ≤ l →
      (offset = none ∨ ∃ vo o, offset = some vo ∧ parseInt vo = .ok o ∧ o < 0) →
      (LimitAndOffsetSQL parseInt limit offset).1 = " LIMIT " ++ fmtInt l) ∧
    ((limit = none ∨ ∃ vl l, limit = some vl ∧ parseInt vl = .ok l ∧ l < 0) →
      (LimitAndOffsetSQL parseInt limit offset).1 = "") := by
  refine ⟨?_, ?_, ?_, ?_⟩
  · cases limit with
    | none => rfl
    | some vl =>
      obtain ⟨l, hpl⟩ := hl vl rfl
      by_cases hl0 : l ≥ 0
      · cases offset with
        | none => simp [LimitAndOffsetSQL, hpl, hl0]
        | some vo =>
          obtain ⟨o, hpo⟩ := ho vo rfl
          by_cases ho0 : o ≥ 0
          · simp [LimitAndOffsetSQL, hpl, hl0, hpo, ho0]
          · simp [LimitAndOffsetSQL, hpl, hl0, hpo, ho0]
      · simp [LimitAndOffsetSQL, hpl, hl0]
  · intro vl l vo o hlim hpl hl0 hoff hpo ho0
    subst hlim hoff
    simp [LimitAndOffsetSQL, hpl, hl0, hpo, ho0, empty_append, String.append_assoc]
  · intro vl l hlim hpl hl0 hoff
    subst hlim
    rcases hoff with hoff | ⟨vo, o, hoff, hpo, ho0⟩
    · subst hoff
      simp [LimitAndOffsetSQL, hpl, hl0, empty_append]
    · subst hoff
      simp [LimitAndOffsetSQL, hpl, hl0, hpo, not_le.mpr ho0, empty_append]
  · intro hlim
    rcases hlim with hlim | ⟨vl, l, hlim, hpl, hl0⟩
    · subst hlim
      rfl
    · subst hlim
      simp [LimitAndOffsetSQL, hpl, not_le.mpr hl0]

/-- C9 (witness): the four examples `(10, 5)`, `(10, nil)`, `(nil, 5)` and
`(-1, 5)`. -/
theorem LimitAndOffsetSQL_numeric_witness :
    LimitAndOffsetSQL parseIntOrText (some (.ok 10)) (some (.ok 5))
      = (" LIMIT 10 OFFSET 5", none) ∧
    LimitAndOffsetSQL parseIntOrText (some (.ok 10)) none = (" LIMIT 10", none) ∧
    LimitAndOffsetSQL parseIntOrText none (some (.ok 5)) = ("", none) ∧
    LimitAndOffsetSQL parseIntOrText (some (.ok (-1))) (some (.ok 5)) = ("", none) :=
  ⟨Prod.ext
    ((LimitAndOffsetSQL_numeric parseIntOrText (some (.ok 10)) (some (.ok 5))
      (fun v hv => ⟨10, by cases hv; rfl⟩) (fun v hv => ⟨5, by cases hv; rfl⟩)).2.1
      (.ok 10) 10 (.ok 5) 5 rfl rfl (by decide) rfl rfl (by decide))
    (LimitAndOffsetSQL_numeric parseIntOrText (some (.ok 10)) (some (.ok 5))
      (fun v hv => ⟨10, by cases hv; rfl⟩) (fun v hv => ⟨5, by cases hv; rfl⟩)).1,
   rfl, rfl, rfl⟩

/-- C10 (counterexample): with an absent limit, or with the limit `-1`, a
present offset that is no number is not reported: `LimitAndOffsetSQL` returns
the empty clause and no error. -/
theorem LimitAndOffsetSQL_offset_ignored :
    parseIntOrText (.error "abc") = .error "abc" ∧
    LimitAndOffsetSQL parseIntOrText none (some (.error "abc")) = ("", none) ∧
    LimitAndOffsetSQL parseIntOrText (some (.ok (-1))) (some (.error "abc")) = ("", none) :=
  ⟨rfl, rfl, rfl⟩

/-- C10 (amended): a present limit that is no number makes `LimitAndOffsetSQL`
return its parse error, whatever the offset is; a present offset that is no
number makes it return the offset's parse error when the limit is present and
converts to a non-negative integer; when the limit is absent or negative the
offset is not converted and the call returns the empty clause without an
error. -/
theorem LimitAndOffsetSQL_parse_error {α ε : Type} (parseInt : α → Except ε Int)
    (limit offset : Option α) :
    (∀ vl err, limit = some vl → parseInt vl = .error err →
      LimitAndOffsetSQL parseInt limit offset = ("", some err)) ∧
    (∀ vl l vo err, limit = some vl → parseInt vl = .ok l → 0 ≤ l →
      offset = some vo → parseInt vo = .error err →
      LimitAndOffsetSQL parseInt limit offset = ("", some err)) ∧
    ((limit = none ∨ ∃ vl l, limit = some vl ∧ parseInt vl = .ok l ∧ l < 0) →
      LimitAndOffsetSQL parseInt limit offset = ("", none)) := by
  refine ⟨?_, ?_, ?_⟩
  · intro vl err hlim hpl
    subst hlim
    simp [LimitAndOffsetSQL, hpl]
  · intro vl l vo err hlim hpl hl0 hoff hpo
    subst hlim hoff
    simp [LimitAndOffsetSQL, hpl, hl0, hpo]
  · intro hlim
    rcases hlim with hlim | ⟨vl, l, hlim, hpl, hl0⟩
    · subst hlim
      rfl
    · subst hlim
      simp [LimitAndOffsetSQL, hpl, not_le.mpr hl0]

theorem bigEndianBytes_length (n x : Nat) : (bigEndianBytes n x).length = n := by
  induction n with
  | zero => rfl
  | succ k ih => simp [bigEndianBytes, ih]

theorem bigEndianBytes_lt (n x : Nat) : ∀ b ∈ bigEndianBytes n x, b < 256 := by
  induction n with
  | zero => simp [bigEndianBytes]
  | succ k ih =>
    intro b hb
    simp only [bigEndianBytes, List.mem_cons] at hb
    rcases hb with hb | hb
    · rw [hb]
      exact Nat.mod_lt _ (by decide)
    · exact ih b hb

theorem sha1Sum_length (msg : List Nat) : (sha1Sum msg).length = 20 := by
  simp [sha1Sum, bigEndianBytes_length]

theorem sha1Sum_lt (msg : List Nat) : ∀ b ∈ sha1Sum msg, b < 256 := by
  intro b hb
  simp only [sha1Sum, List.mem_append] at hb
  rcases hb with (((hb | hb) | hb) | hb) | hb <;> exact bigEndianBytes_lt _ _ b hb

theorem hexString_length (bs : List Nat) : (hexString bs).length = 2 * bs.length := by
  induction bs with
  | nil => rfl
  | cons b t ih =>
    simp only [hexString, String.length, List.flatMap_cons, List.length_append,
      List.length_cons, List.length_nil] at ih ⊢
    omega

theorem hexDigit_mem (n : Nat) (hn : n < 16) : hexDigit n ∈ "0123456789abcdef".data := by
  interval_cases n <;> decide

theorem hexString_chars (bs : List Nat) (hbs : ∀ b ∈ bs, b < 256) :
    ∀ c ∈ (hexString bs).data, c ∈ "0123456789abcdef".data := by
  intro c hc
  simp only [hexString, List.mem_flatMap, List.mem_cons, List.mem_singleton,
    List.not_mem_nil, or_false] at hc
  obtain ⟨b, hb, hc⟩ := hc
  have hlt := hbs b hb
  rcases hc with hc | hc
  · rw [hc]
    exact hexDigit_mem _ (by omega)
  · rw [hc]
    exact hexDigit_mem _ (Nat.mod_lt _ (by decide))

/-! ## Claims on `BuildKeyName` -/

/-- C11: when the base key name has at most 64 characters, counted as
characters and not as bytes, `BuildKeyName` returns it unchanged; a base name
of exactly 64 characters is within the bound. -/
theorem BuildKeyName_short (base : String → String → List String → String)
    (replaceAll : String → String) (kind tableName : String) (fields : List String)
    (hlen : (base kind tableName fields).length ≤ 64) :
    BuildKeyName base replaceAll kind tableName fields = .ok (base kind tableName fields) := by
  simp [BuildKeyName, hlen]

/-- C11 (witness): a base name of exactly 64 characters and 122 bytes is
returned unchanged. -/
theorem BuildKeyName_short_witness :
    (joinKeyName "idx" (String.mk (List.replicate 58 'é')) ["f"]).length = 64 ∧
    (stringBytes (joinKeyName "idx" (String.mk (List.replicate 58 'é')) ["f"])).length = 122 ∧
    BuildKeyName joinKeyName replaceNonAlnum "idx" (String.mk (List.replicate 58 'é')) ["f"]
      = .ok (joinKeyName "idx" (String.mk (List.replicate 58 'é')) ["f"]) :=
  ⟨by rfl, by rfl,
    BuildKeyName_short joinKeyName replaceNonAlnum "idx" (String.mk (List.replicate 58 'é'))
      ["f"] (by decide)⟩

/-- C12: when the base key name has more than 64 characters and there is a
first field, `BuildKeyName` returns the first field name after the
replacement, cut to its first 24 characters (whole when it has at most 24),
followed by the hexadecimal SHA-1 digest of the full base name: 20 bytes,
40 characters, all of them lowercase hexadecimal digits. -/
theorem BuildKeyName_long (base : String → String → List String → String)
    (replaceAll : String → String) (kind tableName field0 : String) (rest : List String)
    (hlen : 64 < (base kind tableName (field0 :: rest)).length) :
    BuildKeyName base replaceAll kind tableName (field0 :: rest) =
      .ok (String.mk ((replaceAll field0).data.take 24)
        ++ hexString (sha1Sum (stringBytes (base kind tableName (field0 :: rest))))) ∧
    ((replaceAll field0).length ≤ 24 →
      BuildKeyName base replaceAll kind tableName (field0 :: rest) =
        .ok (replaceAll field0
          ++ hexString (sha1Sum (stringBytes (base kind tableName (field0 :: rest)))))) ∧
    (sha1Sum (stringBytes (base kind tableName (field0 :: rest)))).length = 20 ∧
    (hexString (sha1Sum (stringBytes (base kind tableName (field0 :: rest))))).length = 40 ∧
    (∀ c ∈ (hexString (sha1Sum (stringBytes (base kind tableName (field0 :: rest))))).data,
      c ∈ "0123456789abcdef".data) := by
  have hmain : BuildKeyName base replaceAll kind tableName (field0 :: rest) =
      .ok (String.mk ((replaceAll field0).data.take 24)
        ++ hexString (sha1Sum (stringBytes (base kind tableName (field0 :: rest))))) := by
    simp only [BuildKeyName, Nat.not_le.mpr hlen, if_false]
    split
    · rfl
    · rename_i hle
      rw [List.take_of_length_le (by omega)]
  refine ⟨hmain, ?_, sha1Sum_length _, ?_, hexString_chars _ (sha1Sum_lt _)⟩
  · intro hle
    rw [hmain, List.take_of_length_le hle]
  · rw [hexString_length, sha1Sum_length]

theorem BuildKeyName_of_long (base : String → String → List String → String)
    (replaceAll : String → String) (kind tableName field0 : String) (rest : List String)
    (hlen : 64 < (base kind tableName (field0 :: rest)).length) :
    BuildKeyName base replaceAll kind tableName (field0 :: rest) =
      .ok (String.mk ((replaceAll field0).data.take 24)
        ++ hexString (sha1Sum (stringBytes (base kind tableName (field0 :: rest))))) := by
  simp only [BuildKeyName, Nat.not_le.mpr hlen, if_false]
  split
  · rfl
  · rename_i hle
    rw [List.take_of_length_le (by omega)]

/-- The bound of 64 characters on every name `BuildKeyName` returns for a list
of fields that is not empty. -/
theorem BuildKeyName_bounded (base : String → String → List String → String)
    (replaceAll : String → String) (kind tableName field0 : String) (rest : List String) :
    ∃ name, BuildKeyName base replaceAll kind tableName (field0 :: rest) = .ok name ∧
      name.length ≤ 64 := by
  by_cases hlen : (base kind tableName (field0 :: rest)).length ≤ 64
  · exact ⟨_, by simp [BuildKeyName, hlen], hlen⟩
  · refine ⟨_, BuildKeyName_of_long base replaceAll kind tableName field0 rest (by omega), ?_⟩
    rw [String.length_append, hexString_length, sha1Sum_length]
    simp only [String.length, List.length_take]
    omega

/-- C13 (the code at the failing input): with no fields and a base key name
of more than 64 characters, `BuildKeyName` returns no name: indexing the first
field panics. -/
theorem BuildKeyName_no_fields_panics (base : String → String → List String → String)
    (replaceAll : String → String) (kind tableName : String)
    (hlen : 64 < (base kind tableName []).length) :
    BuildKeyName base replaceAll kind tableName [] =
      .error "runtime error: index out of range [0] with length 0" := by
  simp [BuildKeyName, Nat.not_le.mpr hlen]

/-- C13 (witness): the kind `idx`, a table name of 70 letters and no field. -/
theorem BuildKeyName_no_fields_panics_witness :
    (joinKeyName "idx" (longTable 5) []).length = 75 ∧
    BuildKeyName joinKeyName replaceNonAlnum "idx" (longTable 5) [] =
      .error "runtime error: index out of range [0] with length 0" :=
  ⟨by rfl, BuildKeyName_no_fields_panics joinKeyName replaceNonAlnum "idx" (longTable 5)
    (by decide)⟩

set_option maxRecDepth 100000 in
/-- The SHA-1 digests of the empty message and of `abc`, as published with the
standard. -/
theorem sha1Sum_test_vectors :
    hexString (sha1Sum (stringBytes "")) = "da39a3ee5e6b4b0d3255bfef95601890afd80709" ∧
    hexString (sha1Sum (stringBytes "abc")) = "a9993e364706816aba3e25717850c26c9cd0d89d" := by
  constructor <;> decide

set_option maxRecDepth 100000 in
/-- C12 (witness): a base name of 114 characters with a first field of 38
characters. -/
theorem BuildKeyName_long_witness :
    BuildKeyName joinKeyName replaceNonAlnum "idx" (longTable 5)
        ["héllo wörld, a field name that is long"]
      = .ok "h_llo_w_rld__a_field_namfaac3e9ee6c1ece4f11c21045ebe5ef5461fdda4" :=
  (BuildKeyName_long joinKeyName replaceNonAlnum "idx" (longTable 5)
    "héllo wörld, a field name that is long" [] (by decide)).1.trans (by rfl)

/-- The five words of a state are below `2 ^ 32`. -/
theorem sha1Block_lt (h : Sha1State) (block : List Nat) :
    (sha1Block h block).a < 2 ^ 32 ∧ (sha1Block h block).b < 2 ^ 32 ∧
    (sha1Block h block).c < 2 ^ 32 ∧ (sha1Block h block).d < 2 ^ 32 ∧
    (sha1Block h block).e < 2 ^ 32 := by
  simp only [sha1Block]
  refine ⟨?_, ?_, ?_, ?_, ?_⟩ <;> exact Nat.mod_lt _ (by decide)

theorem sha1_foldl_lt (blocks : List (List Nat)) (h : Sha1State)
    (hh : h.a < 2 ^ 32 ∧ h.b < 2 ^ 32 ∧ h.c < 2 ^ 32 ∧ h.d < 2 ^ 32 ∧ h.e < 2 ^ 32) :
    (blocks.foldl sha1Block h).a < 2 ^ 32 ∧ (blocks.foldl sha1Block h).b < 2 ^ 32 ∧
    (blocks.foldl sha1Block h).c < 2 ^ 32 ∧ (blocks.foldl sha1Block h).d < 2 ^ 32 ∧
    (blocks.foldl sha1Block h).e < 2 ^ 32 := by
  induction blocks generalizing h with
  | nil => exact hh
  | cons b t ih => exact ih _ (sha1Block_lt h b)

theorem sha1State_lt (msg : List Nat) :
    (sha1State msg).a < 2 ^ 32 ∧ (sha1State msg).b < 2 ^ 32 ∧
    (sha1State msg).c < 2 ^ 32 ∧ (sha1State msg).d < 2 ^ 32 ∧
    (sha1State msg).e < 2 ^ 32 :=
  sha1_foldl_lt _ sha1Init (by decide)

/-- Digests are 20 bytes, so among infinitely many messages two have the same
digest. -/
theorem sha1Sum_not_injective (msgs : Nat → List Nat) :
    ∃ n m, n ≠ m ∧ sha1Sum (msgs n) = sha1Sum (msgs m) := by
  let F : Nat → Fin (2 ^ 32) × Fin (2 ^ 32) × Fin (2 ^ 32) × Fin (2 ^ 32) × Fin (2 ^ 32) :=
    fun n =>
      (⟨(sha1State (msgs n)).a, (sha1State_lt (msgs n)).1⟩,
       ⟨(sha1State (msgs n)).b, (sha1State_lt (msgs n)).2.1⟩,
       ⟨(sha1State (msgs n)).c, (sha1State_lt (msgs n)).2.2.1⟩,
       ⟨(sha1State (msgs n)).d, (sha1State_lt (msgs n)).2.2.2.1⟩,
       ⟨(sha1State (msgs n)).e, (sha1State_lt (msgs n)).2.2.2.2⟩)
  obtain ⟨n, m, hne, hF⟩ := Finite.exists_ne_map_eq_of_infinite F
  refine ⟨n, m, hne, ?_⟩
  simp only [F, Prod.mk.injEq, Fin.mk.injEq] at hF
  obtain ⟨ha, hb, hc, hd, he⟩ := hF
  simp only [sha1Sum, ha, hb, hc, hd, he]

/-- For every base algorithm that gives infinitely many different names of
more than 64 characters to one kind and one list of fields, two of these names
get the same shortened name. -/
theorem BuildKeyName_collision (base : String → String → List String → String)
    (replaceAll : String → String) (kind field0 : String) (rest : List String)
    (tables : Nat → String)
    (hinj : Function.Injective fun n => base kind (tables n) (field0 :: rest))
    (hlong : ∀ n, 64 < (base kind (tables n) (field0 :: rest)).length) :
    ¬ distinctShortNames base replaceAll := by
  intro hclaim
  obtain ⟨n, m, hne, hsum⟩ :=
    sha1Sum_not_injective fun n => stringBytes (base kind (tables n) (field0 :: rest))
  refine hclaim kind (tables n) kind (tables m) field0 rest rest (hlong n) (hlong m)
    (fun heq => hne (hinj heq)) ?_
  rw [BuildKeyName_of_long base replaceAll kind (tables n) field0 rest (hlong n),
    BuildKeyName_of_long base replaceAll kind (tables m) field0 rest (hlong m)]
  have hsum2 : sha1Sum (stringBytes (base kind (tables n) (field0 :: rest)))
      = sha1Sum (stringBytes (base kind (tables m) (field0 :: rest))) := hsum
  rw [hsum2]

theorem joinKeyName_length (kind tableName : String) (fields : List String) :
    (joinKeyName kind tableName fields).length =
      kind.length + 1 + tableName.length + 1 + ("_".intercalate fields).length := by
  simp [joinKeyName, String.length_append]
  rfl

theorem longTable_length (n : Nat) : (longTable n).length = n + 65 := by
  simp [longTable, String.length]

/-- C14 (counterexample): the claim is false. No base algorithm that gives
infinitely many different long names to one kind and one list of fields keeps
all shortened names apart, and the algorithm that joins kind, table name and
fields by underscores is one of them. -/
theorem BuildKeyName_collision_exists :
    (¬ ∃ (base : String → String → List String → String) (replaceAll : String → String),
      (∃ (kind field0 : String) (rest : List String) (tables : Nat → String),
        (Function.Injective fun n => base kind (tables n) (field0 :: rest)) ∧
        ∀ n, 64 < (base kind (tables n) (field0 :: rest)).length) ∧
      distinctShortNames base replaceAll) ∧
    ¬ distinctShortNames joinKeyName replaceNonAlnum := by
  constructor
  · rintro ⟨base, replaceAll, ⟨kind, field0, rest, tables, hinj, hlong⟩, hclaim⟩
    exact BuildKeyName_collision base replaceAll kind field0 rest tables hinj hlong hclaim
  · refine BuildKeyName_collision joinKeyName replaceNonAlnum "idx" "f" [] longTable ?_ ?_
    · intro n m hnm
      have := congrArg String.length hnm
      simp only [joinKeyName_length, longTable_length] at this
      omega
    · intro n
      rw [joinKeyName_length, longTable_length]
      omega

theorem hexValue_hexDigit (n : Nat) (hn : n < 16) : hexValue (hexDigit n) = n := by
  interval_cases n <;> rfl

theorem hexString_cons (b : Nat) (bs : List Nat) :
    (hexString (b :: bs)).data = hexDigit (b / 16) :: hexDigit (b % 16) :: (hexString bs).data := by
  simp [hexString]

theorem hexString_injective (bs cs : List Nat) (hbs : ∀ b ∈ bs, b < 256)
    (hcs : ∀ c ∈ cs, c < 256) (heq : hexString bs = hexString cs) : bs = cs := by
  induction bs generalizing cs with
  | nil =>
    cases cs with
    | nil => rfl
    | cons c t =>
      have := congrArg String.data heq
      rw [hexString_cons] at this
      simp [hexString] at this
  | cons b t ih =>
    cases cs with
    | nil =>
      have := congrArg String.data heq
      rw [hexString_cons] at this
      simp [hexString] at this
    | cons c u =>
      have hd := congrArg String.data heq
      rw [hexString_cons, hexString_cons] at hd
      simp only [List.cons.injEq] at hd
      obtain ⟨h1, h2, h3⟩ := hd
      have hb := hbs b (List.mem_cons_self _ _)
      have hc := hcs c (List.mem_cons_self _ _)
      have e1 := congrArg hexValue h1
      have e2 := congrArg hexValue h2
      rw [hexValue_hexDigit _ (by omega), hexValue_hexDigit _ (by omega)] at e1
      rw [hexValue_hexDigit _ (Nat.mod_lt _ (by decide)),
        hexValue_hexDigit _ (Nat.mod_lt _ (by decide))] at e2
      have hbc : b = c := by omega
      have htu : t = u :=
        ih u (fun x hx => hbs x (List.mem_cons_of_mem _ hx))
          (fun x hx => hcs x (List.mem_cons_of_mem _ hx)) (String.ext h3)
      rw [hbc, htu]

theorem append_left_cancel (p s t : String) (h : p ++ s = p ++ t) : s = t := by
  have := congrArg String.data h
  simp only [String.data_append, List.append_cancel_left_eq] at this
  exact String.ext this

/-- C14 (amended): two inputs with the same first field name whose base key
names are both longer than 64 characters get different shortened names exactly
when the SHA-1 digests of their full base names differ. -/
theorem BuildKeyName_distinct_iff (base : String → String → List String → String)
    (replaceAll : String → String) (kind1 table1 kind2 table2 field0 : String)
    (rest1 rest2 : List String)
    (h1 : 64 < (base kind1 table1 (field0 :: rest1)).length)
    (h2 : 64 < (base kind2 table2 (field0 :: rest2)).length) :
    BuildKeyName base replaceAll kind1 table1 (field0 :: rest1)
        ≠ BuildKeyName base replaceAll kind2 table2 (field0 :: rest2) ↔
      sha1Sum (stringBytes (base kind1 table1 (field0 :: rest1)))
        ≠ sha1Sum (stringBytes (base kind2 table2 (field0 :: rest2))) := by
  rw [BuildKeyName_of_long base replaceAll kind1 table1 field0 rest1 h1,
    BuildKeyName_of_long base replaceAll kind2 table2 field0 rest2 h2]
  constructor
  · intro hne hsum
    exact hne (by rw [hsum])
  · intro hne heq
    injection heq with heq
    exact hne (hexString_injective _ _ (sha1Sum_lt _) (sha1Sum_lt _)
      (append_left_cancel _ _ _ heq))

set_option maxRecDepth 100000 in
/-- C14 (witness): two index names on the field `email` of two tables of 70 and
71 letters are told apart by their digests. -/
theorem BuildKeyName_distinct_iff_witness :
    BuildKeyName joinKeyName replaceNonAlnum "idx" (longTable 5) ["email"]
      ≠ BuildKeyName joinKeyName replaceNonAlnum "idx" (longTable 6) ["email"] :=
  (BuildKeyName_distinct_iff joinKeyName replaceNonAlnum "idx" (longTable 5) "idx"
    (longTable 6) "email" [] [] (by decide) (by decide)).mpr (by decide)

/-! ## Claims on `NormalizeIndexAndColumn` -/

theorem dmIndexRegexFind_of_matches (s g1 g2 : String) (hm : dmIndexRegexMatches s g1 g2) :
    dmIndexRegexFind s = some (g1, g2) := by
  obtain ⟨hs, hg1, hnl, hg2, hdig⟩ := hm
  have hrev : s.data.reverse = ')' :: (g2.data.reverse ++ '(' :: g1.data.reverse) := by
    rw [hs]
    simp [String.data_append]
  have hall : ∀ c ∈ g2.data.reverse, c.isDigit = true := fun c hc =>
    hdig c (List.mem_reverse.mp hc)
  have htake : (g2.data.reverse ++ '(' :: g1.data.reverse).takeWhile Char.isDigit
      = g2.data.reverse := by
    rw [List.takeWhile_append_of_pos hall]
    simp [List.takeWhile_cons, show Char.isDigit '(' = false from rfl]
  have hdrop : (g2.data.reverse ++ '(' :: g1.data.reverse).dropWhile Char.isDigit
      = '(' :: g1.data.reverse := by
    rw [List.dropWhile_append_of_pos hall]
    simp [List.dropWhile_cons, show Char.isDigit '(' = false from rfl]
  have h1 : g1.data ≠ [] := fun h => hg1 (String.ext h)
  have h2 : g2.data ≠ [] := fun h => hg2 (String.ext h)
  unfold dmIndexRegexFind
  rw [hrev]
  simp only [htake, hdrop]
  rw [if_pos ⟨trivial, trivial, by simpa using h2, by simpa using h1, by simpa using hnl⟩]
  simp

theorem dmIndexRegexFind_matches (s g1 g2 : String) (hf : dmIndexRegexFind s = some (g1, g2)) :
    dmIndexRegexMatches s g1 g2 := by
  unfold dmIndexRegexFind at hf
  split at hf
  · cases hf
  · rename_i last r hrev
    simp only [] at hf
    split at hf
    · cases hf
    · rename_i paren baseRev hdrop
      split at hf
      · rename_i hc
        obtain ⟨hlast, hparen, hdig, hbase, hnl⟩ := hc
        simp only [Option.some.injEq, Prod.mk.injEq] at hf
        obtain ⟨hg1, hg2⟩ := hf
        have hr : r = r.takeWhile Char.isDigit ++ '(' :: baseRev := by
          conv_lhs => rw [← List.takeWhile_append_dropWhile Char.isDigit r]
          rw [hdrop, hparen]
        have hall : ∀ c ∈ r.takeWhile Char.isDigit, c.isDigit = true := fun c hc =>
          List.mem_takeWhile_imp hc
        generalize r.takeWhile Char.isDigit = tw at hr hall hdig hg2
        have hdata : s.data = baseRev.reverse ++ '(' :: (tw.reverse ++ [')']) := by
          have := congrArg List.reverse hrev
          rw [List.reverse_reverse] at this
          rw [this, hlast, hr]
          simp
        refine ⟨?_, ?_, ?_, ?_, ?_⟩
        · apply String.ext
          rw [hdata, ← hg1, ← hg2]
          simp [String.data_append]
        · rw [← hg1]
          intro h
          have h0 : baseRev.reverse = [] := congrArg String.data h
          exact hbase (List.reverse_eq_nil_iff.mp h0)
        · rw [← hg1]
          simpa using hnl
        · rw [← hg2]
          intro h
          have h0 : tw.reverse = [] := congrArg String.data h
          exact hdig (List.reverse_eq_nil_iff.mp h0)
        · rw [← hg2]
          intro c hc
          simp only [List.mem_reverse] at hc
          exact hall c hc
      · cases hf

/-- C15 (counterexample): the base name `idx`, line feed, `foo` is not empty,
`10` is a run of digits, and `NormalizeIndexAndColumn` returns both inputs
unchanged: the `.` of the pattern does not match the line feed. -/
theorem NormalizeIndexAndColumn_line_feed :
    "idx\nfoo" ≠ "" ∧ (∀ c ∈ "10".data, c.isDigit = true) ∧
    NormalizeIndexAndColumn ("idx\nfoo" ++ "(" ++ "10" ++ ")") "col"
      = ("idx\nfoo(10)", "col") ∧
    NormalizeIndexAndColumn ("idx\nfoo" ++ "(" ++ "10" ++ ")") "col"
      ≠ ("idx\nfoo", "col" ++ "(" ++ "10" ++ ")") := by
  refine ⟨by decide, by decide, by rfl, by decide⟩

/-- C15 (amended): for every column name `c`, every non-empty base name `b`
without a line feed and every non-empty run `d` of decimal digits,
`NormalizeIndexAndColumn (b(d), c)` is `(b, c(d))`, the digits unchanged. -/
theorem NormalizeIndexAndColumn_split (b d c : String) (hb : b ≠ "")
    (hnl : '\n' ∉ b.data) (hd : d ≠ "") (hdig : ∀ x ∈ d.data, x.isDigit = true) :
    NormalizeIndexAndColumn (b ++ "(" ++ d ++ ")") c = (b, c ++ "(" ++ d ++ ")") := by
  unfold NormalizeIndexAndColumn
  rw [dmIndexRegexFind_of_matches _ b d ⟨rfl, hb, hnl, hd, hdig⟩]

/-- C15 (witness): the example of the specification, and a prefix length with
leading zeros after a base name that has parentheses of its own. -/
theorem NormalizeIndexAndColumn_split_witness :
    NormalizeIndexAndColumn "idx_foo(10)" "col" = ("idx_foo", "col(10)") ∧
    NormalizeIndexAndColumn "a(1)(007)" "col" = ("a(1)", "col(007)") :=
  ⟨NormalizeIndexAndColumn_split "idx_foo" "10" "col" (by decide) (by decide) (by decide)
      (by decide),
    by rfl⟩

/-- C16: an index name that is not a non-empty base followed by a
parenthesized non-empty run of decimal digits at its end is returned
unchanged, and so is the column name. -/
theorem NormalizeIndexAndColumn_unchanged (indexName columnName : String)
    (hform : ¬ ∃ b d : String, b ≠ "" ∧ d ≠ "" ∧ (∀ x ∈ d.data, x.isDigit = true) ∧
      indexName = b ++ "(" ++ d ++ ")") :
    NormalizeIndexAndColumn indexName columnName = (indexName, columnName) := by
  unfold NormalizeIndexAndColumn
  cases hf : dmIndexRegexFind indexName with
  | none => rfl
  | some g =>
    obtain ⟨g1, g2⟩ := g
    obtain ⟨hs, hg1, _, hg2, hdig⟩ := dmIndexRegexFind_matches indexName g1 g2 hf
    exact absurd ⟨g1, g2, hg1, hg2, hdig, hs⟩ hform

theorem not_parenthesized_of_getLast (s : String) (hlast : s.data.getLast? ≠ some ')') :
    ¬ ∃ b d : String, b ≠ "" ∧ d ≠ "" ∧ (∀ x ∈ d.data, x.isDigit = true) ∧
      s = b ++ "(" ++ d ++ ")" := by
  rintro ⟨b, d, _, _, _, hs⟩
  apply hlast
  rw [hs]
  simp only [String.data_append]
  rw [List.getLast?_append]
  rfl

/-- C16 (witness): `idx_plain` does not end in a parenthesis; the other
examples of the claim are unchanged as well. -/
theorem NormalizeIndexAndColumn_unchanged_witness :
    NormalizeIndexAndColumn "idx_plain" "col" = ("idx_plain", "col") ∧
    NormalizeIndexAndColumn "idx()" "col" = ("idx()", "col") ∧
    NormalizeIndexAndColumn "idx(1a)" "col" = ("idx(1a)", "col") ∧
    NormalizeIndexAndColumn "idx(10) " "col" = ("idx(10) ", "col") ∧
    NormalizeIndexAndColumn "(10)" "col" = ("(10)", "col") :=
  ⟨NormalizeIndexAndColumn_unchanged "idx_plain" "col"
      (not_parenthesized_of_getLast "idx_plain" (by decide)),
    by rfl, by rfl, by rfl, by rfl⟩

/-! ## Claims on the existence predicates -/

/-- C17: when the catalog query succeeds with the count zero (`HasTable`,
`HasForeignKey`) or with no row (`HasColumn`, `HasIndex`), the predicate
returns false and does not panic; `HasForeignKey` returns true exactly when
the count is greater than 0, and so does `HasTable` on a count, which is never
negative: `HasTable` compares the count with zero. -/
theorem existence_predicates {ε : Type} (db : DB ε) (dbAndTable : String → String × String)
    (tableName name : String) :
    (db.QueryRow (hasTableQuery (dbAndTable tableName).1 (dbAndTable tableName).2) [] = .ok 0 →
      HasTable db dbAndTable tableName = .ok false) ∧
    (db.QueryRow hasForeignKeyQuery
        [(dbAndTable tableName).1, (dbAndTable tableName).2, name] = .ok 0 →
      HasForeignKey db dbAndTable tableName name = false) ∧
    (db.Query (hasColumnQuery (dbAndTable tableName).1 (dbAndTable tableName).2) [name]
        = .ok [] →
      HasColumn db dbAndTable tableName name = .ok false) ∧
    (db.Query (hasIndexQuery (dbAndTable tableName).1 (dbAndTable tableName).2) [name]
        = .ok [] →
      HasIndex db dbAndTable tableName name = .ok false) ∧
    (∀ n : Int, db.QueryRow hasForeignKeyQuery
        [(dbAndTable tableName).1, (dbAndTable tableName).2, name] = .ok n →
      (HasForeignKey db dbAndTable tableName name = true ↔ 0 < n)) ∧
    (∀ n : Int, 0 ≤ n →
      db.QueryRow (hasTableQuery (dbAndTable tableName).1 (dbAndTable tableName).2) []
        = .ok n →
      (HasTable db dbAndTable tableName = .ok true ↔ 0 < n)) ∧
    (∀ n : Int,
      db.QueryRow (hasTableQuery (dbAndTable tableName).1 (dbAndTable tableName).2) []
        = .ok n →
      (HasTable db dbAndTable tableName = .ok true ↔ n ≠ 0)) := by
  refine ⟨?_, ?_, ?_, ?_, ?_, ?_, ?_⟩
  · intro hq
    simp [HasTable, hq]
  · intro hq
    simp [HasForeignKey, hq]
  · intro hq
    simp [HasColumn, hq]
  · intro hq
    simp [HasIndex, hq]
  · intro n hq
    simp [HasForeignKey, hq]
  · intro n hn hq
    simp only [HasTable, hq]
    by_cases h0 : n = 0
    · simp [h0]
    · simp only [h0, if_false, true_iff]
      omega
  · intro n hq
    simp only [HasTable, hq]
    by_cases h0 : n = 0
    · simp [h0]
    · simp [h0]

/-- C17 (witness): in the example database the table `users` exists and the
table `orders` does not; the column `id` exists and the column `name` does
not; there is no index and no foreign key. -/
theorem existence_predicates_witness :
    HasTable exampleDB (fun t => ("APP", t)) "orders" = .ok false ∧
    HasTable exampleDB (fun t => ("APP", t)) "users" = .ok true ∧
    HasColumn exampleDB (fun t => ("APP", t)) "users" "name" = .ok false ∧
    HasColumn exampleDB (fun t => ("APP", t)) "users" "id" = .ok true ∧
    HasIndex exampleDB (fun t => ("APP", t)) "users" "idx_users_id" = .ok false ∧
    HasForeignKey exampleDB (fun t => ("APP", t)) "users" "fk_users_team" = false :=
  ⟨(existence_predicates exampleDB (fun t => ("APP", t)) "orders" "").1 (by rfl),
    by rfl, by rfl, by rfl, by rfl, by rfl⟩

/-! ## Claims on the tag settings and on the error results -/

theorem DataTypeOf_snd (h : Host) (field : StructField) :
    (DataTypeOf h field).2 = (chosenType h field).2 := by
  unfold DataTypeOf
  simp only []
  split
  · rfl
  · split <;> rfl

theorem autoIncrementArm_snd (h : Host) (field : StructField) (plain : String) :
    (autoIncrementArm h field plain).2 =
      if h.fieldCanAutoIncrement field = true then
        TagSettingsSet field "AUTO_INCREMENT" "AUTO_INCREMENT"
      else field := by
  unfold autoIncrementArm
  split <;> rfl

theorem inferType_snd_of_not_integer (h : Host) (v : Value) (size : Int)
    (field : StructField) (hni : ¬ isIntegerKind v.kind) :
    (inferType h v size field).2 = field := by
  cases hk : v.kind
  case Struct =>
    simp only [inferType, hk]
    split
    · split <;> rfl
    · rfl
  case String =>
    simp only [inferType, hk]
    split <;> rfl
  case Bool => simp only [inferType, hk]
  case Float32 => simp only [inferType, hk]
  case Float64 => simp only [inferType, hk]
  all_goals first
    | (exfalso
       apply hni
       simp [isIntegerKind, hk]
       done)
    | (simp only [inferType, hk]
       split
       · split <;> rfl
       · rfl)

theorem inferType_snd_of_integer (h : Host) (v : Value) (size : Int)
    (field : StructField) (hi : isIntegerKind v.kind) :
    (inferType h v size field).2 =
      if h.fieldCanAutoIncrement field = true then
        TagSettingsSet field "AUTO_INCREMENT" "AUTO_INCREMENT"
      else field := by
  unfold isIntegerKind at hi
  rcases hi with hk | hk | hk | hk | hk | hk | hk | hk | hk | hk | hk <;>
    simp only [inferType, hk, autoIncrementArm_snd]

theorem inferType_snd (h : Host) (v : Value) (size : Int) (field : StructField) :
    (inferType h v size field).2 =
      if isIntegerKind v.kind ∧ h.fieldCanAutoIncrement field = true then
        TagSettingsSet field "AUTO_INCREMENT" "AUTO_INCREMENT"
      else field := by
  by_cases hi : isIntegerKind v.kind
  · rw [inferType_snd_of_integer h v size field hi]
    simp [hi]
  · rw [inferType_snd_of_not_integer h v size field hi]
    simp [hi]

theorem clearAutoIncrement_auto (field : StructField) :
    (clearAutoIncrement field).TagSettings "AUTO_INCREMENT" = none := by
  unfold clearAutoIncrement
  split
  · simp [TagSettingsDelete]
  · rename_i hn
    simp only [TagSettingsGet] at hn
    cases hx : field.TagSettings "AUTO_INCREMENT" with
    | none => rfl
    | some v => rw [hx] at hn; simp at hn

theorem chosenType_snd (h : Host) (field : StructField) :
    (chosenType h field).2 =
      if (h.ParseFieldStructForDialect field).sqlType = "" ∧
          isIntegerKind (h.ParseFieldStructForDialect field).dataValue.kind ∧
          h.fieldCanAutoIncrement (clearAutoIncrement field) = true then
        TagSettingsSet (clearAutoIncrement field) "AUTO_INCREMENT" "AUTO_INCREMENT"
      else clearAutoIncrement field := by
  by_cases hT : (h.ParseFieldStructForDialect field).sqlType = ""
  · rw [chosenType_inferred h field hT, inferType_snd]
    simp [hT]
  · rw [chosenType_explicit h field hT]
    simp [hT]

theorem inferType_endsIn_iff (h : Host) (v : Value) (size : Int) (f : StructField) :
    endsIn (inferType h v size f).1 " AUTO_INCREMENT" ↔
      isIntegerKind v.kind ∧ h.fieldCanAutoIncrement f = true := by
  cases hk : v.kind
  case Struct =>
    have := inferType_time_not_auto h v size f hk
    simp [this, isIntegerKind]
  case String =>
    have := inferType_string_not_auto h v size f hk
    simp [this, isIntegerKind]
  all_goals first
    | (have hb := bytes_not_auto v size f
       simp only [inferType, hk]
       simp [hb, isIntegerKind]
       done)
    | (simp only [inferType, hk, autoIncrementArm_fst]
       cases h.fieldCanAutoIncrement f <;> simp [isIntegerKind] <;> decide)

/-- C18: `DataTypeOf` leaves every tag setting other than `AUTO_INCREMENT` as
it was; after the call `AUTO_INCREMENT` is set to `AUTO_INCREMENT` when the
column type is inferred from an integer kind that the policy qualifies, which
with no explicit type is when the chosen type ends in ` AUTO_INCREMENT`, and
is absent in every other case, whatever it was before the call. -/
theorem DataTypeOf_tag_settings (h : Host) (field : StructField) :
    (∀ key, key ≠ "AUTO_INCREMENT" →
      (DataTypeOf h field).2.TagSettings key = field.TagSettings key) ∧
    ((h.ParseFieldStructForDialect field).sqlType = "" ∧
        isIntegerKind (h.ParseFieldStructForDialect field).dataValue.kind ∧
        h.fieldCanAutoIncrement (clearAutoIncrement field) = true →
      (DataTypeOf h field).2.TagSettings "AUTO_INCREMENT" = some "AUTO_INCREMENT") ∧
    (¬ ((h.ParseFieldStructForDialect field).sqlType = "" ∧
        isIntegerKind (h.ParseFieldStructForDialect field).dataValue.kind ∧
        h.fieldCanAutoIncrement (clearAutoIncrement field) = true) →
      (DataTypeOf h field).2.TagSettings "AUTO_INCREMENT" = none) ∧
    ((h.ParseFieldStructForDialect field).sqlType = "" →
      ((DataTypeOf h field).2.TagSettings "AUTO_INCREMENT" = some "AUTO_INCREMENT" ↔
        endsIn (chosenType h field).1 " AUTO_INCREMENT")) ∧
    ((h.ParseFieldStructForDialect field).sqlType ≠ "" →
      (DataTypeOf h field).2.TagSettings "AUTO_INCREMENT" = none) ∧
    (DataTypeOf h field).2.Name = field.Name ∧
    (DataTypeOf h field).2.IsPrimaryKey = field.IsPrimaryKey := by
  rw [DataTypeOf_snd, chosenType_snd]
  have hset : (TagSettingsSet (clearAutoIncrement field) "AUTO_INCREMENT"
      "AUTO_INCREMENT").TagSettings "AUTO_INCREMENT" = some "AUTO_INCREMENT" := by
    simp [TagSettingsSet]
  have hpos : (h.ParseFieldStructForDialect field).sqlType = "" ∧
        isIntegerKind (h.ParseFieldStructForDialect field).dataValue.kind ∧
        h.fieldCanAutoIncrement (clearAutoIncrement field) = true →
      (if (h.ParseFieldStructForDialect field).sqlType = "" ∧
          isIntegerKind (h.ParseFieldStructForDialect field).dataValue.kind ∧
          h.fieldCanAutoIncrement (clearAutoIncrement field) = true then
        TagSettingsSet (clearAutoIncrement field) "AUTO_INCREMENT" "AUTO_INCREMENT"
      else clearAutoIncrement field).TagSettings "AUTO_INCREMENT" = some "AUTO_INCREMENT" := by
    intro hc
    rw [if_pos hc, hset]
  have hneg : ¬ ((h.ParseFieldStructForDialect field).sqlType = "" ∧
        isIntegerKind (h.ParseFieldStructForDialect field).dataValue.kind ∧
        h.fieldCanAutoIncrement (clearAutoIncrement field) = true) →
      (if (h.ParseFieldStructForDialect field).sqlType = "" ∧
          isIntegerKind (h.ParseFieldStructForDialect field).dataValue.kind ∧
          h.fieldCanAutoIncrement (clearAutoIncrement field) = true then
        TagSettingsSet (clearAutoIncrement field) "AUTO_INCREMENT" "AUTO_INCREMENT"
      else clearAutoIncrement field).TagSettings "AUTO_INCREMENT" = none := by
    intro hc
    rw [if_neg hc, clearAutoIncrement_auto]
  refine ⟨?_, hpos, hneg, ?_, ?_, ?_, ?_⟩
  · intro key hkey
    split
    · simp only [TagSettingsSet, hkey, if_false]
      exact clearAutoIncrement_get field key hkey
    · exact clearAutoIncrement_get field key hkey
  · intro hT
    rw [chosenType_inferred h field hT, inferType_endsIn_iff]
    constructor
    · intro hsome
      by_contra hc
      rw [hneg (fun hcc => hc hcc.2)] at hsome
      cases hsome
    · intro hc
      exact hpos ⟨hT, hc⟩
  · intro hT
    exact hneg (fun hc => hT hc.1)
  · split
    · exact clearAutoIncrement_name field
    · exact clearAutoIncrement_name field
  · split
    · exact clearAutoIncrement_pk field
    · exact clearAutoIncrement_pk field

/-- C18 (witness): a field that is no primary key loses the setting
`AUTO_INCREMENT` it had before the call, and keeps its other settings. -/
theorem DataTypeOf_tag_settings_witness :
    (taggedField "Addr" false "AUTO_INCREMENT" "AUTO_INCREMENT").TagSettings "AUTO_INCREMENT"
      = some "AUTO_INCREMENT" ∧
    (DataTypeOf (constHost ⟨valueOf .Uintptr, "", 255, ""⟩)
      (taggedField "Addr" false "AUTO_INCREMENT" "AUTO_INCREMENT")).2.TagSettings
        "AUTO_INCREMENT" = none ∧
    (DataTypeOf (constHost ⟨valueOf .Int64, "", 255, ""⟩)
      (plainField "ID" true)).2.TagSettings "AUTO_INCREMENT" = some "AUTO_INCREMENT" :=
  ⟨by rfl,
    (DataTypeOf_tag_settings (constHost ⟨valueOf .Uintptr, "", 255, ""⟩)
      (taggedField "Addr" false "AUTO_INCREMENT" "AUTO_INCREMENT")).2.2.1 (by decide),
    (DataTypeOf_tag_settings (constHost ⟨valueOf .Int64, "", 255, ""⟩)
      (plainField "ID" true)).2.1 (by decide)⟩

theorem clearAutoIncrement_congr (f1 f2 : StructField) (hname : f1.Name = f2.Name)
    (hpk : f1.IsPrimaryKey = f2.IsPrimaryKey)
    (htags : ∀ key, key ≠ "AUTO_INCREMENT" → f1.TagSettings key = f2.TagSettings key) :
    clearAutoIncrement f1 = clearAutoIncrement f2 := by
  have hn := (clearAutoIncrement_name f1).trans (hname.trans (clearAutoIncrement_name f2).symm)
  have hp := (clearAutoIncrement_pk f1).trans (hpk.trans (clearAutoIncrement_pk f2).symm)
  have ht : (clearAutoIncrement f1).TagSettings = (clearAutoIncrement f2).TagSettings := by
    funext key
    by_cases hkey : key = "AUTO_INCREMENT"
    · rw [hkey, clearAutoIncrement_auto, clearAutoIncrement_auto]
    · rw [clearAutoIncrement_get f1 key hkey, clearAutoIncrement_get f2 key hkey]
      exact htags key hkey
  cases hc1 : clearAutoIncrement f1
  cases hc2 : clearAutoIncrement f2
  rw [hc1, hc2] at hn hp ht
  simp only at hn hp ht
  rw [hn, hp, ht]

/-- C19: the policy is queried on the descriptor without its `AUTO_INCREMENT`
setting, so two descriptors that differ only in that setting and for which
the parser reports the same value, explicit type, size and suffix get the same
result and are left with the same name, primary-key flag and tag settings. -/
theorem DataTypeOf_ignores_auto_increment (h : Host) (f1 f2 : StructField)
    (hname : f1.Name = f2.Name) (hpk : f1.IsPrimaryKey = f2.IsPrimaryKey)
    (htags : ∀ key, key ≠ "AUTO_INCREMENT" → f1.TagSettings key = f2.TagSettings key)
    (hvalue : (h.ParseFieldStructForDialect f1).dataValue
      = (h.ParseFieldStructForDialect f2).dataValue)
    (htype : (h.ParseFieldStructForDialect f1).sqlType
      = (h.ParseFieldStructForDialect f2).sqlType)
    (hsize : (h.ParseFieldStructForDialect f1).size = (h.ParseFieldStructForDialect f2).size)
    (hsuffix : (h.ParseFieldStructForDialect f1).additionalType
      = (h.ParseFieldStructForDialect f2).additionalType) :
    (DataTypeOf h f1).1 = (DataTypeOf h f2).1 ∧ (DataTypeOf h f1).2 = (DataTypeOf h f2).2 := by
  have hclear := clearAutoIncrement_congr f1 f2 hname hpk htags
  have hchosen : chosenType h f1 = chosenType h f2 := by
    simp only [chosenType, hvalue, htype, hsize, hclear]
  have hD : DataTypeOf h f1 = DataTypeOf h f2 := by
    simp only [DataTypeOf, hchosen, hvalue, hsuffix]
  rw [hD]
  exact ⟨rfl, rfl⟩

/-- C19 (witness): a primary key of kind `int64` gets `bigint AUTO_INCREMENT`
with the setting `AUTO_INCREMENT` = `false` as without it. -/
theorem DataTypeOf_ignores_auto_increment_witness :
    (DataTypeOf (constHost ⟨valueOf .Int64, "", 255, ""⟩)
        (taggedField "ID" true "AUTO_INCREMENT" "false")).1
      = (DataTypeOf (constHost ⟨valueOf .Int64, "", 255, ""⟩) (plainField "ID" true)).1 ∧
    (DataTypeOf (constHost ⟨valueOf .Int64, "", 255, ""⟩)
        (taggedField "ID" true "AUTO_INCREMENT" "false")).2
      = (DataTypeOf (constHost ⟨valueOf .Int64, "", 255, ""⟩) (plainField "ID" true)).2 :=
  DataTypeOf_ignores_auto_increment (constHost ⟨valueOf .Int64, "", 255, ""⟩)
    (taggedField "ID" true "AUTO_INCREMENT" "false") (plainField "ID" true) rfl rfl
    (fun key hkey => by simp [taggedField, plainField, hkey]) rfl rfl rfl rfl

/-- C20: an error of `LimitAndOffsetSQL` comes with the empty string, also
when the limit was converted and only the offset is no number; without an
error the string is empty or starts with ` LIMIT `. -/
theorem LimitAndOffsetSQL_error_empty {α ε : Type} (parseInt : α → Except ε Int)
    (limit offset : Option α) :
    ((LimitAndOffsetSQL parseInt limit offset).2 ≠ none →
      (LimitAndOffsetSQL parseInt limit offset).1 = "") ∧
    (∀ vl l vo err, limit = some vl → parseInt vl = .ok l → 0 ≤ l →
      offset = some vo → parseInt vo = .error err →
      LimitAndOffsetSQL parseInt limit offset = ("", some err)) ∧
    ((LimitAndOffsetSQL parseInt limit offset).2 = none →
      (LimitAndOffsetSQL parseInt limit offset).1 = "" ∨
      ∃ rest, (LimitAndOffsetSQL parseInt limit offset).1 = " LIMIT " ++ rest) := by
  cases limit with
  | none => simp [LimitAndOffsetSQL]
  | some vl =>
    cases hpl : parseInt vl with
    | error e =>
      simp only [LimitAndOffsetSQL, hpl]
      refine ⟨fun _ => trivial, ?_, fun hn => Or.inl trivial⟩
      intro vl2 l2 vo err hlim hpl2 _ _ _
      cases hlim
      rw [hpl] at hpl2
      cases hpl2
    | ok l =>
      by_cases hl0 : 0 ≤ l
      · cases offset with
        | none =>
          refine ⟨?_, ?_, fun _ => Or.inr ⟨fmtInt l, ?_⟩⟩
          · simp [LimitAndOffsetSQL, hpl, hl0]
          · intro vl2 l2 vo err _ _ _ hoff
            cases hoff
          · simp [LimitAndOffsetSQL, hpl, hl0, empty_append]
        | some vo =>
          cases hpo : parseInt vo with
          | error e =>
            simp only [LimitAndOffsetSQL, hpl, hl0, hpo]
            refine ⟨fun _ => by simp, ?_, fun hn => Or.inl (by simp)⟩
            intro vl2 l2 vo2 err _ _ _ hoff hpo2
            cases hoff
            rw [hpo] at hpo2
            cases hpo2
            simp
          | ok o =>
            by_cases ho0 : 0 ≤ o
            · refine ⟨?_, ?_, fun _ =>
                Or.inr ⟨fmtInt l ++ " OFFSET " ++ fmtInt o, ?_⟩⟩
              · simp [LimitAndOffsetSQL, hpl, hl0, hpo, ho0]
              · intro vl2 l2 vo2 err _ _ _ hoff hpo2
                cases hoff
                rw [hpo] at hpo2
                cases hpo2
              · simp [LimitAndOffsetSQL, hpl, hl0, hpo, ho0, empty_append,
                  String.append_assoc]
            · refine ⟨?_, ?_, fun _ => Or.inr ⟨fmtInt l, ?_⟩⟩
              · simp [LimitAndOffsetSQL, hpl, hl0, hpo, ho0]
              · intro vl2 l2 vo2 err _ _ _ hoff hpo2
                cases hoff
                rw [hpo] at hpo2
                cases hpo2
              · simp [LimitAndOffsetSQL, hpl, hl0, hpo, ho0, empty_append]
      · refine ⟨?_, ?_, fun _ => Or.inl ?_⟩
        · simp [LimitAndOffsetSQL, hpl, hl0]
        · intro vl2 l2 vo err hlim hpl2 hl2 _ _
          cases hlim
          rw [hpl] at hpl2
          cases hpl2
          exact absurd hl2 hl0
        · simp [LimitAndOffsetSQL, hpl, hl0]

end Gorm
